import Mathlib

/-!
Verification of the gPlanner core (src/src/app/page.tsx).

Shallow embedding of the gPlanner task planner: the time-bucketing engine
(`bucketFromDays`, `remainingToStep`, `stepToRemainingDays`), the CSV codec
(`tasksToCSV`, `splitCSVLine`, `parseCSV`), and the task-mutating operations
(`addTask`, `saveEdit`, `markDone`, `handleDotPointerMove`) of the last
(most complete) component variant in the file, plus the legacy bucketing
variant at lines 170-217.

Modelling conventions:
* JavaScript strings are `List Char` (`Str`).
* JavaScript numbers that can be `NaN` in reachable states are `Option Int`
  (`JSNum`, `none` = NaN); every reachable non-NaN value in the modelled code
  is integral.  Fractional intermediate values (drag geometry, step rounding)
  are `Rat`; the double rounding error never crosses a rounding boundary for
  the integer inputs these functions receive, so exact rational arithmetic
  agrees with IEEE doubles there.
* Calendar dates: `new Date(iso + "T00:00:00")` is modelled by a whole-day
  timestamp (days since the civil epoch 1970-01-01); `Math.ceil` of a
  whole-day difference is the difference itself.  Invalid dates give `none`
  (JS `NaN`).
* Ambient effects (`todayISO()`, `new Date().toISOString()`, generated ids,
  pointer capture) are passed as explicit parameters.
-/

namespace GPlanner

/-- JavaScript string, modelled as a list of characters. -/
abbrev Str := List Char

/-- A JavaScript number in the reachable states of this program:
`none` models `NaN`, `some v` an integral value. -/
abbrev JSNum := Option Int

/-- `Math.max(1, x)` on a possibly-NaN number: `Math.max(1, NaN) = NaN`. -/
def jsMax1 : JSNum → JSNum
  | none => none
  | some v => some (max 1 v)

/-- Whitespace as recognised by `String.prototype.trim` (ASCII subset used
by this code base). -/
def jsIsWS (c : Char) : Bool :=
  c = ' ' ∨ c = '\t' ∨ c = '\n' ∨ c = '\r'

/-- `String.prototype.trim`: drop whitespace from both ends. -/
def jsTrim (s : Str) : Str :=
  ((s.dropWhile jsIsWS).reverse.dropWhile jsIsWS).reverse

/-- Decimal digits of a natural number (JS `Number.prototype.toString` for
a non-negative integer).  Fuel-structured so that it reduces in the kernel. -/
def natDigitsAux : Nat → Nat → Str
  | 0, _ => []
  | fuel + 1, n =>
    if n < 10 then [Nat.digitChar n]
    else natDigitsAux fuel (n / 10) ++ [Nat.digitChar (n % 10)]

/-- JS `String(n)` for a non-negative integer. -/
def natToStr (n : Nat) : Str := natDigitsAux (n + 1) n

/-- JS `String(i)` / `Number.prototype.toString` for an integer. -/
def intToStr (i : Int) : Str :=
  if i < 0 then '-' :: natToStr i.natAbs else natToStr i.toNat

/-- JS `String(x)` for a possibly-NaN number: `String(NaN) = "NaN"`. -/
def jsNumToStr : JSNum → Str
  | none => ['N', 'a', 'N']
  | some v => intToStr v

/-- Numeric value of a digit character. -/
def digitVal (c : Char) : Nat := c.toNat - '0'.toNat

/-- `parseInt(s, 10)`: skip leading whitespace, optional sign, then the
longest digit prefix; `NaN` (`none`) when no digit follows. -/
def jsParseInt (s : Str) : JSNum :=
  let s1 := s.dropWhile jsIsWS
  let (neg, s2) : Bool × Str :=
    match s1 with
    | '-' :: rest => (true, rest)
    | '+' :: rest => (false, rest)
    | rest => (false, rest)
  let digs := s2.takeWhile Char.isDigit
  if digs = [] then none
  else
    let n : Nat := digs.foldl (fun acc c => 10 * acc + digitVal c) 0
    some (if neg then -(n : Int) else (n : Int))

/-! ## Calendar arithmetic

`diffInDays` and `addDays` go through `new Date(iso + "T00:00:00")`.  We model
the timestamp of a valid calendar date by its civil day number (days since
1970-01-01, Hinnant's algorithm) and an invalid date by `none` (JS NaN). -/

/-- Leap year test of the Gregorian calendar. -/
def isLeapYear (y : Int) : Bool :=
  y % 4 = 0 ∧ (y % 100 ≠ 0 ∨ y % 400 = 0)

/-- Days in a month of the Gregorian calendar. -/
def daysInMonth (y m : Int) : Int :=
  if m = 2 then (if isLeapYear y then 29 else 28)
  else if m = 4 ∨ m = 6 ∨ m = 9 ∨ m = 11 then 30
  else 31

/-- Is `y-m-d` a real calendar date? -/
def isValidYMD (y m d : Int) : Bool :=
  1 ≤ m ∧ m ≤ 12 ∧ 1 ≤ d ∧ d ≤ daysInMonth y m

/-- Civil day number of a calendar date: days since 1970-01-01
(Hinnant's `days_from_civil`, floor division). -/
def daysFromCivil (y m d : Int) : Int :=
  let y1 := y - (if m ≤ 2 then 1 else 0)
  let era := Int.fdiv y1 400
  let yoe := y1 - era * 400
  let mp := (m + 9) % 12
  let doy := Int.fdiv (153 * mp + 2) 5 + d - 1
  let doe := yoe * 365 + Int.fdiv yoe 4 - Int.fdiv yoe 100 + doy
  era * 146097 + doe - 719468

/-- Calendar date of a civil day number (Hinnant's `civil_from_days`). -/
def civilFromDays (z : Int) : Int × Int × Int :=
  let z1 := z + 719468
  let era := Int.fdiv z1 146097
  let doe := z1 - era * 146097
  let yoe := Int.fdiv (doe - Int.fdiv doe 1460 + Int.fdiv doe 36524 - Int.fdiv doe 146096) 365
  let y := yoe + era * 400
  let doy := doe - (365 * yoe + Int.fdiv yoe 4 - Int.fdiv yoe 100)
  let mp := Int.fdiv (5 * doy + 2) 153
  let d := doy - Int.fdiv (153 * mp + 2) 5 + 1
  let m := mp + (if mp < 10 then 3 else -9)
  (y + (if m ≤ 2 then 1 else 0), m, d)

/-- Parse a string of the exact shape `yyyy-MM-dd` into its numeric parts. -/
def parseISOYMD (s : Str) : Option (Int × Int × Int) :=
  match s with
  | [a, b, c, d, '-', e, f, '-', g, h] =>
    if a.isDigit ∧ b.isDigit ∧ c.isDigit ∧ d.isDigit ∧ e.isDigit ∧ f.isDigit ∧
        g.isDigit ∧ h.isDigit then
      some (((digitVal a * 10 + digitVal b) * 10 + digitVal c) * 10 + digitVal d,
            digitVal e * 10 + digitVal f,
            digitVal g * 10 + digitVal h)
    else none
  | _ => none

/-- Day-number timestamp of `new Date(s + "T00:00:00")`: `some` civil day
number for a valid `yyyy-MM-dd` string, `none` (NaN) otherwise. -/
def jsDateDayNumber (s : Str) : Option Int :=
  match parseISOYMD s with
  | some (y, m, d) => if isValidYMD y m d then some (daysFromCivil y m d) else none
  | none => none

/-- `diffInDays(fromISO, toISO)` (page.tsx:5032-5036):
`Math.ceil((to - from) / MS_PER_DAY)` on midnight timestamps; a whole-day
difference, NaN when either date is invalid. -/
def diffInDays (fromISO toISO : Str) : JSNum :=
  match jsDateDayNumber fromISO, jsDateDayNumber toISO with
  | some a, some b => some (b - a)
  | _, _ => none

/-- `String(n).padStart(2, "0")`. -/
def pad2 (n : Int) : Str :=
  let s := intToStr n
  if s.length < 2 then '0' :: s else s

/-- `formatDateYYYYMMDD` (page.tsx:5047-5052) on a valid date value. -/
def formatYMD (y m d : Int) : Str :=
  intToStr y ++ '-' :: pad2 m ++ '-' :: pad2 d

/-- `addDays(baseISO, days)` (page.tsx:5038-5045); an invalid base date
formats as `"NaN-NaN-NaN"` exactly as in JS. -/
def addDays (baseISO : Str) (days : Int) : Str :=
  match jsDateDayNumber baseISO with
  | some n =>
    let (y, m, d) := civilFromDays (n + days)
    formatYMD y m d
  | none => ['N','a','N','-','N','a','N','-','N','a','N']

/-! ## The time-bucketing engine (page.tsx:5100-5108, identical at 1957-1965) -/

/-- Bucket names of the four time regions. -/
inductive TimeBucket where
  | days
  | weeks
  | months
  | years
  deriving DecidableEq, Repr

/-- The `{ region, bucket }` object returned by `bucketFromDays`. -/
structure Placement where
  region : Int
  bucket : TimeBucket
  deriving DecidableEq, Repr

/-- `bucketFromDays` (page.tsx:5100-5108): classify a day count into one of
the four regions, `null` outside `[1, 3650]`. -/
def bucketFromDays (days : Int) : Option Placement :=
  if 1 ≤ days ∧ days ≤ 7 then some ⟨4, .days⟩
  else if 8 ≤ days ∧ days ≤ 28 then some ⟨3, .weeks⟩
  else if 29 ≤ days ∧ days ≤ 365 then some ⟨2, .months⟩
  else if 366 ≤ days ∧ days ≤ 3650 then some ⟨1, .years⟩
  else none

/-- `bucketFromDays` applied to a possibly-NaN day count: every comparison
with NaN is false, so NaN classifies to `null`. -/
def bucketFromDaysNum (days : JSNum) : Option Placement :=
  match days with
  | none => none
  | some d => bucketFromDays d

/-- Lower day bound of a region (the table at page.tsx:5103-5106). -/
def regionLoDays (r : Int) : Int :=
  if r = 4 then 1 else if r = 3 then 8 else if r = 2 then 29 else 366

/-- Upper day bound of a region. -/
def regionHiDays (r : Int) : Int :=
  if r = 4 then 7 else if r = 3 then 28 else if r = 2 then 365 else 3650

/-! ## Project colors (page.tsx:4969-5020) -/

/-- `DEFAULT_PROJECT_COLOR` (page.tsx:4969). -/
def DEFAULT_PROJECT_COLOR : Str := "#475569".data

/-- `PROJECT_COLOR_PALETTE` (page.tsx:4970-4981). -/
def PROJECT_COLOR_PALETTE : List Str :=
  ["#0ea5e9".data, "#f97316".data, "#22c55e".data, "#a855f7".data, "#ec4899".data,
   "#facc15".data, "#06b6d4".data, "#ef4444".data, "#4ade80".data, "#c084fc".data]

/-- ASCII lower-casing of one character (`String.prototype.toLowerCase` on
the ASCII strings this code handles). -/
def jsToLowerChar (c : Char) : Char :=
  if 'A' ≤ c ∧ c ≤ 'Z' then Char.ofNat (c.toNat + 32) else c

/-- `value.toLowerCase()`. -/
def jsToLower (s : Str) : Str := s.map jsToLowerChar

/-- `hashString` (page.tsx:4998-5004): iterated `(hash * 31 + code) >>> 0`,
i.e. arithmetic modulo `2^32`.  `charCodeAt` agrees with the character's
code point on the BMP strings this program handles. -/
def hashString (value : Str) : Nat :=
  value.foldl (fun hash c => (hash * 31 + c.toNat) % 4294967296) 0

/-- `fallbackProjectColor` (page.tsx:5006-5011). -/
def fallbackProjectColor (project : Str) : Str :=
  let key := jsToLower (jsTrim project)
  if key = [] then DEFAULT_PROJECT_COLOR
  else PROJECT_COLOR_PALETTE.getD (hashString key % PROJECT_COLOR_PALETTE.length)
    DEFAULT_PROJECT_COLOR

/-- Hexadecimal digit test for the `#[0-9a-fA-F]{6}` pattern. -/
def jsIsHexDigit (c : Char) : Bool :=
  c.isDigit ∨ ('a' ≤ c ∧ c ≤ 'f') ∨ ('A' ≤ c ∧ c ≤ 'F')

/-- `sanitizeHexColor` (page.tsx:4991-4996): falsy input (absent or empty)
gives `undefined`; otherwise the trimmed value must match `#[0-9a-fA-F]{6}`
and is lower-cased. -/
def sanitizeHexColor (input : Option Str) : Option Str :=
  match input with
  | none => none
  | some s =>
    if s = [] then none
    else
      let value := jsTrim s
      let hexOk : Bool :=
        match value with
        | '#' :: rest => rest.length == 6 && rest.all jsIsHexDigit
        | _ => false
      if hexOk then some (jsToLower value) else none

/-- `resolveProjectColor` (page.tsx:5013-5015). -/
def resolveProjectColor (project : Str) (color : Option Str) : Str :=
  (sanitizeHexColor color).getD (fallbackProjectColor project)

/-! ## The Task record (page.tsx:4947-4960) -/

/-- The persisted `Task` entity of the last component variant. -/
structure Task where
  id : Str
  date : Str
  deadline : Str
  project : Str
  projectTag : Option Str
  projectColor : Option Str
  task : Str
  region : Int
  bucket : TimeBucket
  remainingDays : JSNum
  createdAt : Str
  finishedAt : Option Str
  deriving DecidableEq, Repr

/-- Name string of a bucket, as serialized to CSV. -/
def bucketName : TimeBucket → Str
  | .days => "days".data
  | .weeks => "weeks".data
  | .months => "months".data
  | .years => "years".data

/-! ## CSV encoder (`tasksToCSV`, page.tsx:5168-5217) -/

/-- `v.replace(/"/g, '""')`: double every quote. -/
def dblQuotes : Str → Str
  | [] => []
  | c :: rest => (if c = '"' then ['"', '"'] else [c]) ++ dblQuotes rest

/-- Does a serialized field need CSV quoting?
(`v.includes(",") || v.includes('"') || v.includes("\n")`, page.tsx:5208). -/
def needsQuote (v : Str) : Bool :=
  v.contains ',' ∨ v.contains '"' ∨ v.contains '\n'

/-- Wrap a field in double quotes when it needs them (page.tsx:5207-5212). -/
def quoteField (v : Str) : Str :=
  if needsQuote v then '"' :: v ++ ['"'] else v

/-- `Array.prototype.join` with a one-character separator. -/
def joinSep (sep : Char) : List Str → Str
  | [] => []
  | [v] => v
  | v :: rest => v ++ sep :: joinSep sep rest

/-- The fixed CSV header columns (page.tsx:5169-5182). -/
def csvHeaderNames : List Str :=
  ["id".data, "date".data, "deadline".data, "project".data, "projectTag".data,
   "projectColor".data, "task".data, "region".data, "bucket".data,
   "remainingDays".data, "createdAt".data, "finishedAt".data]

/-- The row array built for one task (page.tsx:5183-5203): quote-doubled
project/tag/color/task, stringified region and remainingDays, resolved color. -/
def csvRowValues (t : Task) : List Str :=
  [t.id, t.date, t.deadline,
   dblQuotes t.project,
   dblQuotes (t.projectTag.getD []),
   dblQuotes (resolveProjectColor t.project t.projectColor),
   dblQuotes t.task,
   intToStr t.region,
   bucketName t.bucket,
   jsNumToStr t.remainingDays,
   t.createdAt,
   t.finishedAt.getD []]

/-- `tasksToCSV` (page.tsx:5168-5217). -/
def tasksToCSV (tasks : List Task) : Str :=
  joinSep '\n'
    (joinSep ',' csvHeaderNames ::
      tasks.map (fun t => joinSep ',' ((csvRowValues t).map quoteField)))

/-! ## CSV line splitter (`splitCSVLine`, page.tsx:5219-5251) -/

/-- The character loop of `splitCSVLine`: `inQuotes` state, doubled-quote
lookahead (`line[i + 1] === '"'`), comma field breaks.  Fuel equals the
number of remaining characters at most, consumed one unit per loop step,
so the `0` case is unreachable from `splitCSVLine`. -/
def splitCSVLineGo (fuel : Nat) (inQuotes : Bool) (cur : Str) (acc : List Str)
    (s : Str) : List Str :=
  match fuel with
  | 0 => acc ++ [cur]
  | fuel + 1 =>
    match s with
    | [] => acc ++ [cur]
    | c :: rest =>
      match inQuotes with
      | true =>
        if c = '"' then
          if rest.head? = some '"' then splitCSVLineGo fuel true (cur ++ ['"']) acc rest.tail
          else splitCSVLineGo fuel false cur acc rest
        else splitCSVLineGo fuel true (cur ++ [c]) acc rest
      | false =>
        if c = '"' then splitCSVLineGo fuel true cur acc rest
        else if c = ',' then splitCSVLineGo fuel false [] (acc ++ [cur]) rest
        else splitCSVLineGo fuel false (cur ++ [c]) acc rest

/-- The trailing `while (result.length < expectedCols) result.push("")`. -/
def padCols (expectedCols : Nat) (cols : List Str) : List Str :=
  cols ++ List.replicate (expectedCols - cols.length) []

/-- `splitCSVLine` (page.tsx:5219-5251). -/
def splitCSVLine (line : Str) (expectedCols : Nat) : List Str :=
  padCols expectedCols (splitCSVLineGo line.length false [] [] line)

/-! ## CSV parser (`parseCSV`, page.tsx:5253-5339) -/

/-- `text.split(/\r?\n/)`: break at every newline, consuming an immediately
preceding carriage return with it.  Fuel as in `splitCSVLineGo`. -/
def splitLinesGo (fuel : Nat) (cur : Str) (acc : List Str) (s : Str) : List Str :=
  match fuel with
  | 0 => acc ++ [cur]
  | fuel + 1 =>
    match s with
    | [] => acc ++ [cur]
    | c :: rest =>
      if c = '\n' then splitLinesGo fuel [] (acc ++ [cur]) rest
      else if c = '\r' ∧ rest.head? = some '\n' then
        splitLinesGo fuel [] (acc ++ [cur]) rest.tail
      else splitLinesGo fuel (cur ++ [c]) acc rest

/-- `text.split(/\r?\n/)`. -/
def jsSplitLines (text : Str) : List Str := splitLinesGo text.length [] [] text

/-- `line.split(",")` (no quote handling; used on the header only). -/
def jsSplitComma : Str → List Str
  | [] => [[]]
  | c :: rest =>
    if c = ',' then [] :: jsSplitComma rest
    else
      match jsSplitComma rest with
      | h :: t => (c :: h) :: t
      | [] => [[c]]

/-- `Array.prototype.indexOf`, as an optional position (`-1` becomes `none`). -/
def jsIndexOfGo (name : Str) : Nat → List Str → Option Nat
  | _, [] => none
  | i, x :: rest => if x = name then some i else jsIndexOfGo name (i + 1) rest

/-- `header.indexOf(name)`. -/
def jsIndexOf (xs : List Str) (name : Str) : Option Nat := jsIndexOfGo name 0 xs

/-- `idx >= 0 ? cols[idx] : ""`, with an out-of-range or `undefined` access
collapsing to the empty (falsy) string as every use site does. -/
def colAt (cols : List Str) : Option Nat → Str
  | some j => cols.getD j []
  | none => []

/-- The column positions looked up once per parse (page.tsx:5259-5270). -/
structure CSVIdxs where
  idxId : Option Nat
  idxDate : Option Nat
  idxDeadline : Option Nat
  idxProject : Option Nat
  idxProjectTag : Option Nat
  idxProjectColor : Option Nat
  idxTask : Option Nat
  idxRegion : Option Nat
  idxBucket : Option Nat
  idxRemaining : Option Nat
  idxCreated : Option Nat
  idxFinished : Option Nat

/-- The `idx(name)` lookups of `parseCSV`. -/
def csvIdxsOf (header : List Str) : CSVIdxs :=
  ⟨jsIndexOf header ("id".data), jsIndexOf header ("date".data),
   jsIndexOf header ("deadline".data), jsIndexOf header ("project".data),
   jsIndexOf header ("projectTag".data), jsIndexOf header ("projectColor".data),
   jsIndexOf header ("task".data), jsIndexOf header ("region".data),
   jsIndexOf header ("bucket".data), jsIndexOf header ("remainingDays".data),
   jsIndexOf header ("createdAt".data), jsIndexOf header ("finishedAt".data)⟩

/-- `normalizeDateInput` (page.tsx:5067-5098).

The final `new Date(trimmed)` fallback parses engine-defined extra formats;
it is modelled as unparseable (`none`), which is exact for every string this
development feeds it (the earlier branches catch all `yyyy-MM-dd` and
`M/D/YYYY`-style inputs). -/
def isISOShape (s : Str) : Bool :=
  match s with
  | [a, b, c, d, '-', e, f, '-', g, h] =>
    a.isDigit ∧ b.isDigit ∧ c.isDigit ∧ d.isDigit ∧ e.isDigit ∧ f.isDigit ∧
      g.isDigit ∧ h.isDigit
  | _ => false

/-- A separator of the `M/D/YYYY`-style pattern: `[\/\.-]`. -/
def isSepChar (c : Char) : Bool := c = '/' ∨ c = '.' ∨ c = '-'

/-- Digits to a number, most significant first. -/
def digitsToNat (digs : Str) : Nat :=
  digs.foldl (fun acc c => 10 * acc + digitVal c) 0

/-- The `^(\d{1,2})[\/\.-](\d{1,2})[\/\.-](\d{2,4})$` match of
`normalizeDateInput` (page.tsx:5072-5074), yielding the three groups. -/
def matchSimpleDate (s : Str) : Option (Nat × Nat × Nat) :=
  let g1 := s.takeWhile Char.isDigit
  match s.dropWhile Char.isDigit with
  | c1 :: r2 =>
    if isSepChar c1 ∧ 1 ≤ g1.length ∧ g1.length ≤ 2 then
      let g2 := r2.takeWhile Char.isDigit
      match r2.dropWhile Char.isDigit with
      | c2 :: r4 =>
        if isSepChar c2 ∧ 1 ≤ g2.length ∧ g2.length ≤ 2 then
          let g3 := r4.takeWhile Char.isDigit
          if (r4.dropWhile Char.isDigit) = [] ∧ 2 ≤ g3.length ∧ g3.length ≤ 4 then
            some (digitsToNat g1, digitsToNat g2, digitsToNat g3)
          else none
        else none
      | [] => none
    else none
  | [] => none

/-- `normalizeDateInput` (page.tsx:5067-5098). -/
def normalizeDateInput (value : Option Str) : Option Str :=
  let trimmed := jsTrim (value.getD [])
  if trimmed = [] then none
  else if isISOShape trimmed then some trimmed
  else
    match matchSimpleDate trimmed with
    | some (m0, d0, y0) =>
      let year : Int := if y0 < 100 then (y0 : Int) + 2000 else (y0 : Int)
      let month : Int := if m0 > 12 ∧ d0 ≤ 12 then (d0 : Int) else (m0 : Int)
      let day : Int := if m0 > 12 ∧ d0 ≤ 12 then (m0 : Int) else (d0 : Int)
      if isValidYMD year month day then some (formatYMD year month day)
      else none
    | none => none

/-- The loop body of `parseCSV` (page.tsx:5281-5335) applied to the split
columns of one data row. -/
def parseCSVRowFromCols (idxs : CSVIdxs) (today nowTs : Str) (i : Nat)
    (cols : List Str) : Task :=
  let rawId := colAt cols idxs.idxId
  let id := if rawId = [] then "csv-".data ++ natToStr i else rawId
  let rawDate := colAt cols idxs.idxDate
  let rawDeadline := colAt cols idxs.idxDeadline
  let date := (normalizeDateInput (some rawDate)).getD today
  let deadline := (normalizeDateInput (some rawDeadline)).getD date
  let candidateRemaining := diffInDays today deadline
  let recomputed := bucketFromDaysNum candidateRemaining
  let rawRegion := colAt cols idxs.idxRegion
  let parsedRegion := jsParseInt rawRegion
  let region : Int :=
    match recomputed with
    | some p => p.region
    | none =>
      match parsedRegion with
      | some v => if v = 1 ∨ v = 2 ∨ v = 3 ∨ v = 4 then v else 4
      | none => 4
  let rawBucket := colAt cols idxs.idxBucket
  let bucket : TimeBucket :=
    match recomputed with
    | some p => p.bucket
    | none =>
      if rawBucket = "days".data then .days
      else if rawBucket = "weeks".data then .weeks
      else if rawBucket = "months".data then .months
      else if rawBucket = "years".data then .years
      else .days
  let remainingDays : JSNum :=
    match recomputed with
    | some _ => jsMax1 candidateRemaining
    | none =>
      let c := colAt cols idxs.idxRemaining
      jsMax1 (jsParseInt (if c = [] then "1".data else c))
  let project := colAt cols idxs.idxProject
  let projectTag := colAt cols idxs.idxProjectTag
  let projectColor := colAt cols idxs.idxProjectColor
  let task := colAt cols idxs.idxTask
  let rawCreated := colAt cols idxs.idxCreated
  let createdAt := if rawCreated = [] then nowTs else rawCreated
  let rawFinished := colAt cols idxs.idxFinished
  let finishedAt := if rawFinished = [] then none else some rawFinished
  { id := id, date := date, deadline := deadline, project := project,
    projectTag := some projectTag, projectColor := some projectColor,
    task := task, region := region, bucket := bucket,
    remainingDays := remainingDays, createdAt := createdAt,
    finishedAt := finishedAt }

/-- The `for` loop of `parseCSV` over the data lines; `i` is the line index
(the first data line has `i = 1`), used for the synthesized `csv-${i}` id. -/
def parseCSVGo (idxs : CSVIdxs) (headerLen : Nat) (today nowTs : Str) :
    Nat → List Str → List Task
  | _, [] => []
  | i, raw :: rest =>
    if jsTrim raw = [] then parseCSVGo idxs headerLen today nowTs (i + 1) rest
    else
      let cols := splitCSVLine raw headerLen
      if cols.length < headerLen then
        parseCSVGo idxs headerLen today nowTs (i + 1) rest
      else
        parseCSVRowFromCols idxs today nowTs i cols ::
          parseCSVGo idxs headerLen today nowTs (i + 1) rest

/-- `parseCSV` (page.tsx:5253-5339).  `today` is `todayISO()` and `nowTs`
is `new Date().toISOString()`, passed explicitly. -/
def parseCSV (today nowTs : Str) (text : Str) : List Task :=
  let lines := (jsSplitLines text).filter (fun l => !(jsTrim l).isEmpty)
  if lines.length < 2 then []
  else
    let header := jsSplitComma (lines.headD [])
    parseCSVGo (csvIdxsOf header) header.length today nowTs 1 (lines.drop 1)

/-! ## Region labels and messages (page.tsx:5129-5157, 5731-5752, 5797-5805) -/

/-- `stars(region)`: `"★★★★".slice(0, region)`. -/
def starsStr (region : Int) : Str := ("★★★★".data).take region.toNat

/-- `regionLabel` (page.tsx:5129-5140). -/
def regionLabel (region : Int) : Str :=
  if region = 4 then "Important – Urgent".data
  else if region = 3 then "Important – Not urgent".data
  else if region = 2 then "Not important – Urgent".data
  else "Not important – Not urgent".data

/-- The alert shown by `addTask` for an unclassifiable deadline
(page.tsx:5737). -/
def rangeAlertMsg : Str :=
  "Deadline must be between 1 day and 10 years from today.".data

/-- The alert shown by `saveEdit` for an unclassifiable deadline
(page.tsx:5803). -/
def editRangeAlertMsg : Str :=
  "Edited deadline must be between 1 day and 10 years from today.".data

/-- The alert shown by `addTask` when the target region is full
(page.tsx:5746-5750). -/
def capacityMsg (region maxCount : Int) : Str :=
  "Region ".data ++ starsStr region ++ ' ' :: regionLabel region ++
    " is at capacity (".data ++ intToStr maxCount ++ " tasks).".data

/-- The per-region capacity configuration (page.tsx:5159-5164). -/
structure MaxPerRegion where
  r1 : Int
  r2 : Int
  r3 : Int
  r4 : Int
  deriving DecidableEq, Repr

/-- `maxPerRegion[region]` for a region in `{1, 2, 3, 4}`. -/
def maxFor (m : MaxPerRegion) (region : Int) : Int :=
  if region = 1 then m.r1 else if region = 2 then m.r2
  else if region = 3 then m.r3 else m.r4

/-! ## Add / edit / mark-done (page.tsx:5731-5828) -/

/-- The form state read by `addTask`. -/
structure AddForm where
  newDeadline : Str
  newTask : Str
  newProject : Str
  newProjectTag : Str
  newProjectColor : Str

/-- Outcome of `addTask`: silent early return, a blocking `alert`, or the
appended task list committed with `setTasks`. -/
inductive AddResult where
  | noop
  | alerted (msg : Str)
  | added (tasks : List Task)
  deriving DecidableEq, Repr

/-- `addTask` (page.tsx:5731-5775).  The generated id and `createdAt`
timestamp are passed in as `newId` / `createdAt`. -/
def addTask (today : Str) (tasks : List Task) (maxPerRegion : MaxPerRegion)
    (form : AddForm) (newId createdAt : Str) : AddResult :=
  if form.newDeadline = [] ∨ jsTrim form.newTask = [] then .noop
  else
    let remaining := diffInDays today form.newDeadline
    match bucketFromDaysNum remaining with
    | none => .alerted rangeAlertMsg
    | some info =>
      let regionCount :=
        (tasks.filter (fun t => t.region == info.region && t.finishedAt == none)).length
      if (regionCount : Int) ≥ maxFor maxPerRegion info.region then
        .alerted (capacityMsg info.region (maxFor maxPerRegion info.region))
      else
        let trimmedTag := jsTrim form.newProjectTag
        let colorValue := resolveProjectColor form.newProject (some form.newProjectColor)
        .added (tasks ++
          [{ id := newId, date := today, deadline := form.newDeadline,
             project := jsTrim form.newProject,
             projectTag := if trimmedTag = [] then none else some trimmedTag,
             projectColor := some colorValue,
             task := jsTrim form.newTask,
             region := info.region, bucket := info.bucket,
             remainingDays := remaining,
             createdAt := createdAt, finishedAt := none }])

/-- The task list after `addTask` (unchanged unless the success path ran). -/
def tasksAfterAdd (today : Str) (tasks : List Task) (maxPerRegion : MaxPerRegion)
    (form : AddForm) (newId createdAt : Str) : List Task :=
  match addTask today tasks maxPerRegion form newId createdAt with
  | .added ts => ts
  | _ => tasks

/-- Outcome of `saveEdit`. -/
inductive EditResult where
  | noop
  | alerted (msg : Str)
  | saved (tasks : List Task)
  deriving DecidableEq, Repr

/-- `saveEdit` (page.tsx:5797-5828).  Note: unlike `addTask`, it performs
no capacity check before moving the task into its recomputed region. -/
def saveEdit (today : Str) (tasks : List Task) (editTask : Option Task) :
    EditResult :=
  match editTask with
  | none => .noop
  | some et =>
    let remaining := diffInDays today et.deadline
    match bucketFromDaysNum remaining with
    | none => .alerted editRangeAlertMsg
    | some info =>
      let normalizedColor := resolveProjectColor et.project et.projectColor
      .saved (tasks.map (fun t =>
        if t.id = et.id then
          { et with
            projectColor := some normalizedColor
            region := info.region
            bucket := info.bucket
            remainingDays := remaining }
        else t))

/-- The task list after `saveEdit`. -/
def tasksAfterEdit (today : Str) (tasks : List Task) (editTask : Option Task) :
    List Task :=
  match saveEdit today tasks editTask with
  | .saved ts => ts
  | _ => tasks

/-- `markDone` (page.tsx:5782-5787); `now` is `new Date().toISOString()`. -/
def markDone (now : Str) (id : Str) (tasks : List Task) : List Task :=
  tasks.map (fun t => if t.id = id then { t with finishedAt := some now } else t)

/-! ## Geometry and pointer drag (page.tsx:5957-5965, 5989-6047, 6134-6182) -/

/-- `stepsForBucket` (page.tsx:5989-5994). -/
def stepsForBucket : TimeBucket → Nat
  | .days => 7
  | .weeks => 4
  | .months => 12
  | .years => 10

/-- `Math.round`: round half toward positive infinity. -/
def jsRound (q : ℚ) : Int := ⌊q + 1 / 2⌋

/-- `remainingToStep` (page.tsx:5996-6020), on the two task fields it reads. -/
def remainingToStep (bucket : TimeBucket) (remainingDays : Int) : Int :=
  let n : Int := stepsForBucket bucket
  match bucket with
  | .days => min (max remainingDays 1) n
  | .weeks => min (max (jsRound ((remainingDays : ℚ) / 7)) 1) n
  | .months => min (max (jsRound ((remainingDays : ℚ) / 30)) 1) n
  | .years => min (max (jsRound ((remainingDays : ℚ) / 365)) 1) n

/-- `urgencyProgress` (page.tsx:6022-6028). -/
def urgencyProgress (bucket : TimeBucket) (remainingDays : Int) : ℚ :=
  let nSteps : Int := stepsForBucket bucket
  let step := remainingToStep bucket remainingDays
  if nSteps ≤ 1 then 1
  else min 1 (max 0 (1 - ((step : ℚ) - 1) / ((nSteps : ℚ) - 1)))

/-- `stepToRemainingDays` (page.tsx:6030-6042). -/
def stepToRemainingDays (bucket : TimeBucket) (step : Int) : Int :=
  let s := max 1 step
  match bucket with
  | .days => s
  | .weeks => s * 7
  | .months => s * 30
  | .years => s * 365

/-- `maxR` of the geometry (page.tsx:5957-5964): `size / 2 - padding`. -/
def geometryMaxR (size : ℚ) : ℚ := size / 2 - 60

/-- `ringRadii` (page.tsx:5963). -/
def ringRadii (size : ℚ) : List ℚ :=
  [(1 : ℚ) / 4, 1 / 2, 3 / 4].map (fun p => p * geometryMaxR size)

/-- `minRadiusFactor` (page.tsx:6044-6045). -/
def minRadiusFactor (size : ℚ) : ℚ :=
  match ringRadii size with
  | r0 :: _ => r0 / geometryMaxR size
  | [] => 1 / 4

/-- `maxRadiusFactor = 0.97` (page.tsx:6046). -/
def maxRadiusFactor : ℚ := 97 / 100

/-- `radiusFactorRange` (page.tsx:6047). -/
def radiusFactorRange (size : ℚ) : ℚ :=
  max (1 / 100) (maxRadiusFactor - minRadiusFactor size)

/-- The radial distance from the planner center at which `dotPositions`
places a task's dot (page.tsx:6096-6099): `maxR * radiusFactor`.  The dot's
Cartesian position is `(cx + r·cos θ, cy − r·sin θ)` for this `r` and the
task's lane angle `θ`, so `r` is exactly its distance from `(cx, cy)`. -/
def dotPositionRadius (size : ℚ) (bucket : TimeBucket) (remainingDays : Int) : ℚ :=
  geometryMaxR size *
    (minRadiusFactor size + radiusFactorRange size * urgencyProgress bucket remainingDays)

/-- `handleDotPointerMove` (page.tsx:6134-6182).  The handler reduces the
pointer position to `dist = √(dx² + dy²)`, its distance from the planner
center, and never reads the angular component; `dist` is the parameter here
(exact for a pointer dropped on any dot position).  Movements with
`dist < 5` are ignored; otherwise the dragged task keeps its region and
bucket and gets a step-quantized remaining-day count and deadline. -/
def handleDotPointerMove (size : ℚ) (today : Str) (draggingId : Option Str)
    (dist : ℚ) (tasks : List Task) : List Task :=
  match draggingId with
  | none => tasks
  | some dragId =>
    if dist < 5 then tasks
    else
      let distFactor := min (max (dist / geometryMaxR size) (minRadiusFactor size)) maxRadiusFactor
      let progress := min (max ((distFactor - minRadiusFactor size) / radiusFactorRange size) 0) 1
      tasks.map (fun t =>
        if t.id ≠ dragId then t
        else
          let nSteps : Int := stepsForBucket t.bucket
          let step : Int :=
            if nSteps ≤ 1 then 1
            else min (max (jsRound ((1 - progress) * ((nSteps : ℚ) - 1) + 1)) 1) nSteps
          let newRemaining := stepToRemainingDays t.bucket step
          { t with
            remainingDays := some newRemaining
            deadline := addDays today newRemaining })

end GPlanner

/-! ## The legacy bucketing variant (page.tsx:113-217) -/

namespace GPlanner.V1

/-- `clamp` (page.tsx:113-114): `Math.max(min, Math.min(max, x))`. -/
def clamp (x lo hi : Int) : Int := max lo (min hi x)

/-- The `TimeBucket` record of the first variant (page.tsx:150-154). -/
structure TimeBucket where
  stars : Int
  unitIndex : Int
  deriving DecidableEq, Repr

/-- `bucketFromDays` of the first variant (page.tsx:170-217): a total
function with linear-interpolation step indices; `label` is determined by
`stars` and `unitIndex` and is omitted.  Day counts are integers; the
float arithmetic of the source never lands within `1/(2·(dMax−dMin))` of a
rounding boundary except at exactly representable halves, so exact rational
arithmetic reproduces it. -/
def bucketFromDays (days : Option Int) : TimeBucket :=
  match days with
  | none => ⟨1, 1⟩
  | some d0 =>
    let d := if d0 ≤ 0 then 1 else d0
    if d ≤ 7 then
      ⟨4, clamp (GPlanner.jsRound (((d : ℚ) - 1) / (7 - 1) * (7 - 1)) + 1) 1 7⟩
    else if d ≤ 28 then
      ⟨3, clamp (GPlanner.jsRound (((d : ℚ) - 8) / (28 - 8) * (4 - 1)) + 1) 1 4⟩
    else if d ≤ 365 then
      ⟨2, clamp (GPlanner.jsRound (((d : ℚ) - 29) / (365 - 29) * (12 - 1)) + 1) 1 12⟩
    else
      let cd := min (max d 366) 3650
      ⟨1, clamp (GPlanner.jsRound (((cd : ℚ) - 366) / (3650 - 366) * (10 - 1)) + 1) 1 10⟩

end GPlanner.V1

namespace GPlanner

/-- Sample task builder for the concrete scenarios below. -/
def mkSampleTask (id deadline : Str) (region : Int) (bucket : TimeBucket)
    (remainingDays : JSNum) : Task :=
  { id := id, date := "2025-01-01".data, deadline := deadline,
    project := "proj".data, projectTag := none, projectColor := none,
    task := "work".data, region := region, bucket := bucket,
    remainingDays := remainingDays,
    createdAt := "2025-01-01T00:00:00.000Z".data, finishedAt := none }

/-- The fixed header these scenarios exercise (exactly the encoder's). -/
def stdCSVHeader : Str :=
  "id,date,deadline,project,projectTag,projectColor,task,region,bucket,remainingDays,createdAt,finishedAt".data

/-- The decoded form of the row
`t1,2025-01-01,2025-01-11,proj,,,x,1,years,999,C,` against reference date
2025-01-01: placement recomputed to region 3 / weeks / 10 days. -/
def decodedWeeksRow : Task :=
  { id := "t1".data, date := "2025-01-01".data, deadline := "2025-01-11".data,
    project := "proj".data, projectTag := some [], projectColor := some [],
    task := "x".data, region := 3, bucket := .weeks, remainingDays := some 10,
    createdAt := "C".data, finishedAt := none }

/-- A serialized field that the encoder emits without escaping: it must be
free of quotes and line breaks for the codec to keep row/column structure
(commas are fine — the encoder quotes them). -/
def QuoteFree (v : Str) : Prop := '"' ∉ v ∧ '\n' ∉ v ∧ '\r' ∉ v

/-- A value the encoder quote-doubles: only line breaks are unprotected. -/
def NoBreak (v : Str) : Prop := '\n' ∉ v ∧ '\r' ∉ v

/-- Tasks as the application itself creates them: nonempty id, break-free
text fields, a region in 1..4, an ISO deadline that normalizes to itself
and classifies against the decode reference date. -/
def WellFormedTask (today : Str) (t : Task) : Prop :=
  t.id ≠ [] ∧ QuoteFree t.id ∧ QuoteFree t.date ∧ QuoteFree t.deadline ∧
  NoBreak t.project ∧ NoBreak (t.projectTag.getD []) ∧
  NoBreak (resolveProjectColor t.project t.projectColor) ∧ NoBreak t.task ∧
  (t.region = 1 ∨ t.region = 2 ∨ t.region = 3 ∨ t.region = 4) ∧
  QuoteFree (jsNumToStr t.remainingDays) ∧
  QuoteFree t.createdAt ∧ QuoteFree (t.finishedAt.getD []) ∧
  normalizeDateInput (some t.deadline) = some t.deadline ∧
  (∃ p : Placement, bucketFromDaysNum (diffInDays today t.deadline) = some p)

/-- The raw (pre-escaping) values of the twelve CSV columns of a task. -/
def csvDecodedValues (t : Task) : List Str :=
  [t.id, t.date, t.deadline, t.project, t.projectTag.getD [],
   resolveProjectColor t.project t.projectColor, t.task,
   intToStr t.region, bucketName t.bucket, jsNumToStr t.remainingDays,
   t.createdAt, t.finishedAt.getD []]

/-- What the round trip promises for one decoded task against its source:
identical id, project, task text and deadline, and placement recomputed by
the Bucketing Engine against the decode reference date. -/
def DecodedMatches (today : Str) (dec src : Task) : Prop :=
  dec.id = src.id ∧ dec.project = src.project ∧ dec.task = src.task ∧
  dec.deadline = src.deadline ∧
  ∃ p : Placement, bucketFromDaysNum (diffInDays today src.deadline) = some p ∧
    dec.region = p.region ∧ dec.bucket = p.bucket ∧
    dec.remainingDays = jsMax1 (diffInDays today src.deadline)

instance (v : Str) : Decidable (QuoteFree v) := by
  unfold QuoteFree
  infer_instance

instance (v : Str) : Decidable (NoBreak v) := by
  unfold NoBreak
  infer_instance

/-- Round-trip sample: a 3-days-out task whose project and text contain
commas and quotes. -/
def wtSample1 : Task :=
  { id := "task-1".data, date := "2025-03-01".data, deadline := "2025-03-04".data,
    project := ("alpha, \"beta\"").data, projectTag := none, projectColor := none,
    task := ("do, it \"now\"").data, region := 4, bucket := .days,
    remainingDays := some 3, createdAt := "2025-03-01T10:00:00.000Z".data,
    finishedAt := none }

/-- Round-trip sample: a finished 45-days-out task with an empty project. -/
def wtSample2 : Task :=
  { id := "task-2".data, date := "2025-03-01".data, deadline := "2025-04-15".data,
    project := [], projectTag := some ("x".data), projectColor := none,
    task := "plain".data, region := 2, bucket := .months,
    remainingDays := some 45, createdAt := "2025-03-01T10:00:00.000Z".data,
    finishedAt := some ("2025-03-02T10:00:00.000Z".data) }

/-- A task whose text spans two lines, as the task Textarea allows. -/
def csvNewlineTask : Task :=
  { id := "t9".data, date := "2025-03-01".data, deadline := "2025-03-04".data,
    project := "proj".data, projectTag := none, projectColor := none,
    task := ("line one\nline two").data, region := 4, bucket := .days,
    remainingDays := some 3, createdAt := "C".data, finishedAt := none }

end GPlanner

namespace GPlanner

/-- C1.  For every integer `d` in `[1, 3650]`, `bucketFromDays d` returns a
placement whose region is one of `4, 3, 2, 1`, whose day range contains `d`,
and no other region's day range contains `d`. -/
theorem bucketFromDays_total (d : Int) (h1 : 1 ≤ d) (h2 : d ≤ 3650) :
    ∃ p : Placement, bucketFromDays d = some p ∧
      (p.region = 4 ∨ p.region = 3 ∨ p.region = 2 ∨ p.region = 1) ∧
      regionLoDays p.region ≤ d ∧ d ≤ regionHiDays p.region ∧
      (∀ r : Int, (r = 4 ∨ r = 3 ∨ r = 2 ∨ r = 1) →
        (regionLoDays r ≤ d ∧ d ≤ regionHiDays r) → r = p.region) := by
  unfold bucketFromDays regionLoDays regionHiDays
  by_cases c4 : 1 ≤ d ∧ d ≤ 7
  · refine ⟨⟨4, .days⟩, by simp [c4], by simp, by simp [c4.1], by simp [c4.2], ?_⟩
    intro r hr hrng
    rcases hr with rfl | rfl | rfl | rfl <;> simp_all <;> omega
  · by_cases c3 : 8 ≤ d ∧ d ≤ 28
    · refine ⟨⟨3, .weeks⟩, by simp [c4, c3], by simp, by simp [c3.1], by simp [c3.2], ?_⟩
      intro r hr hrng
      rcases hr with rfl | rfl | rfl | rfl <;> simp_all <;> omega
    · by_cases c2 : 29 ≤ d ∧ d ≤ 365
      · refine ⟨⟨2, .months⟩, by simp [c4, c3, c2], by simp, by simp [c2.1], by simp [c2.2], ?_⟩
        intro r hr hrng
        rcases hr with rfl | rfl | rfl | rfl <;> simp_all <;> omega
      · have c1 : 366 ≤ d ∧ d ≤ 3650 := by omega
        refine ⟨⟨1, .years⟩, by simp [c4, c3, c2, c1], by simp, ?_, ?_, ?_⟩
        · simpa using c1.1
        · simpa using c1.2
        · intro r hr hrng
          rcases hr with rfl | rfl | rfl | rfl <;> simp_all <;> omega

/-- Witness for C1 at `d = 10`: region 3 (weeks) contains 10. -/
theorem bucketFromDays_total_witness :
    (1 : Int) ≤ 10 ∧ (10 : Int) ≤ 3650 ∧
      ∃ p : Placement, bucketFromDays 10 = some p ∧
        (p.region = 4 ∨ p.region = 3 ∨ p.region = 2 ∨ p.region = 1) ∧
        regionLoDays p.region ≤ 10 ∧ (10 : Int) ≤ regionHiDays p.region ∧
        (∀ r : Int, (r = 4 ∨ r = 3 ∨ r = 2 ∨ r = 1) →
          (regionLoDays r ≤ 10 ∧ (10 : Int) ≤ regionHiDays r) → r = p.region) :=
  ⟨by norm_num, by norm_num, bucketFromDays_total 10 (by norm_num) (by norm_num)⟩

end GPlanner

namespace GPlanner

/-! ## C10: markDone frame property -/

/-- C10.  `markDone` keeps the list length; the task at any position is
unchanged when its id differs, and is exactly the original with only
`finishedAt` set to the current timestamp when its id matches. -/
theorem markDone_frame (now id : Str) (tasks : List Task) (i : Nat)
    (h : i < tasks.length) :
    (markDone now id tasks).length = tasks.length ∧
    (markDone now id tasks).get ⟨i, by simpa [markDone] using h⟩ =
      (if (tasks.get ⟨i, h⟩).id = id then
        { tasks.get ⟨i, h⟩ with finishedAt := some now }
      else tasks.get ⟨i, h⟩) := by
  constructor
  · simp [markDone]
  · simp [markDone]

/-- Witness for C10 on a concrete two-task list: the matching task gets
`finishedAt` set, the other is untouched. -/
theorem markDone_frame_witness :
    (0 : Nat) <
      ([{ id := "a".data, date := [], deadline := [], project := [],
          projectTag := none, projectColor := none, task := [], region := 4,
          bucket := .days, remainingDays := some 3, createdAt := [],
          finishedAt := none },
        { id := "b".data, date := [], deadline := [], project := [],
          projectTag := none, projectColor := none, task := [], region := 3,
          bucket := .weeks, remainingDays := some 10, createdAt := [],
          finishedAt := none }] : List Task).length ∧
    ((markDone ("NOW".data) ("a".data)
        [{ id := "a".data, date := [], deadline := [], project := [],
           projectTag := none, projectColor := none, task := [], region := 4,
           bucket := .days, remainingDays := some 3, createdAt := [],
           finishedAt := none },
         { id := "b".data, date := [], deadline := [], project := [],
           projectTag := none, projectColor := none, task := [], region := 3,
           bucket := .weeks, remainingDays := some 10, createdAt := [],
           finishedAt := none }]).length = 2) := by
  refine ⟨by decide, ?_⟩
  have h := markDone_frame ("NOW".data) ("a".data)
    [{ id := "a".data, date := [], deadline := [], project := [],
       projectTag := none, projectColor := none, task := [], region := 4,
       bucket := .days, remainingDays := some 3, createdAt := [],
       finishedAt := none },
     { id := "b".data, date := [], deadline := [], project := [],
       projectTag := none, projectColor := none, task := [], region := 3,
       bucket := .weeks, remainingDays := some 10, createdAt := [],
       finishedAt := none }] 0 (by decide)
  simpa using h.1

end GPlanner

namespace GPlanner

/-! ## C8: step monotonicity -/

/-- `Math.round` is monotone. -/
theorem jsRound_mono {q1 q2 : ℚ} (h : q1 ≤ q2) : jsRound q1 ≤ jsRound q2 := by
  unfold jsRound
  exact Int.floor_le_floor (by linarith)

/-- `clamp` of the first variant is monotone in its argument. -/
theorem V1.clamp_mono {x1 x2 lo hi : Int} (h : x1 ≤ x2) :
    V1.clamp x1 lo hi ≤ V1.clamp x2 lo hi := by
  unfold V1.clamp
  exact max_le_max le_rfl (min_le_min le_rfl h)

/-- C8.  Step indices are non-decreasing in the day count within a fixed
region: for the rendering step (`remainingToStep`, any bucket, any
`d1 ≤ d2`) and for the legacy variant's `unitIndex` (`bucketFromDays` at
page.tsx:170-217, both counts inside the same region's day range). -/
theorem step_index_monotone (bucket : TimeBucket) (d1 d2 : Int) (h : d1 ≤ d2)
    (r : Int) (hr : r = 4 ∨ r = 3 ∨ r = 2 ∨ r = 1)
    (hlo1 : regionLoDays r ≤ d1) (hhi2 : d2 ≤ regionHiDays r) :
    remainingToStep bucket d1 ≤ remainingToStep bucket d2 ∧
      (V1.bucketFromDays (some d1)).unitIndex ≤
        (V1.bucketFromDays (some d2)).unitIndex := by
  constructor
  · cases bucket <;>
      · unfold remainingToStep
        refine min_le_min (max_le_max ?_ le_rfl) le_rfl
        first
        | exact h
        | exact jsRound_mono (by
            apply div_le_div_of_nonneg_right _ (by norm_num)
            exact_mod_cast h)
  · have h1 : regionLoDays r ≤ d2 := le_trans hlo1 h
    have h2 : d1 ≤ regionHiDays r := le_trans h hhi2
    rcases hr with rfl | rfl | rfl | rfl <;>
      simp only [regionLoDays, regionHiDays] at hlo1 hhi2 h1 h2 <;>
      norm_num at hlo1 hhi2 h1 h2
    · -- region 4: 1 ≤ d ≤ 7
      unfold V1.bucketFromDays
      have e1 : ¬ d1 ≤ 0 := by omega
      have e2 : ¬ d2 ≤ 0 := by omega
      simp only [e1, e2, if_false, if_pos h2, if_pos hhi2]
      refine V1.clamp_mono (by
        have : ((d1 : ℚ) - 1) / (7 - 1) * (7 - 1) ≤ ((d2 : ℚ) - 1) / (7 - 1) * (7 - 1) := by
          have : (d1 : ℚ) ≤ (d2 : ℚ) := by exact_mod_cast h
          nlinarith
        exact add_le_add_right (jsRound_mono this) 1)
    · -- region 3: 8 ≤ d ≤ 28
      unfold V1.bucketFromDays
      have e1 : ¬ d1 ≤ 0 := by omega
      have e2 : ¬ d2 ≤ 0 := by omega
      have f1 : ¬ d1 ≤ 7 := by omega
      have f2 : ¬ d2 ≤ 7 := by omega
      simp only [e1, e2, f1, f2, if_false, if_pos h2, if_pos hhi2]
      refine V1.clamp_mono (by
        have hc : (d1 : ℚ) ≤ (d2 : ℚ) := by exact_mod_cast h
        have : ((d1 : ℚ) - 8) / (28 - 8) * (4 - 1) ≤ ((d2 : ℚ) - 8) / (28 - 8) * (4 - 1) := by
          nlinarith
        exact add_le_add_right (jsRound_mono this) 1)
    · -- region 2: 29 ≤ d ≤ 365
      unfold V1.bucketFromDays
      have e1 : ¬ d1 ≤ 0 := by omega
      have e2 : ¬ d2 ≤ 0 := by omega
      have f1 : ¬ d1 ≤ 7 := by omega
      have f2 : ¬ d2 ≤ 7 := by omega
      have g1 : ¬ d1 ≤ 28 := by omega
      have g2 : ¬ d2 ≤ 28 := by omega
      simp only [e1, e2, f1, f2, g1, g2, if_false, if_pos h2, if_pos hhi2]
      refine V1.clamp_mono (by
        have hc : (d1 : ℚ) ≤ (d2 : ℚ) := by exact_mod_cast h
        have : ((d1 : ℚ) - 29) / (365 - 29) * (12 - 1) ≤ ((d2 : ℚ) - 29) / (365 - 29) * (12 - 1) := by
          nlinarith
        exact add_le_add_right (jsRound_mono this) 1)
    · -- region 1: 366 ≤ d ≤ 3650
      unfold V1.bucketFromDays
      have e1 : ¬ d1 ≤ 0 := by omega
      have e2 : ¬ d2 ≤ 0 := by omega
      have f1 : ¬ d1 ≤ 7 := by omega
      have f2 : ¬ d2 ≤ 7 := by omega
      have g1 : ¬ d1 ≤ 28 := by omega
      have g2 : ¬ d2 ≤ 28 := by omega
      have k1 : ¬ d1 ≤ 365 := by omega
      have k2 : ¬ d2 ≤ 365 := by omega
      simp only [e1, e2, f1, f2, g1, g2, k1, k2, if_false]
      refine V1.clamp_mono (by
        have hm : min (max d1 366) 3650 ≤ min (max d2 366) 3650 :=
          min_le_min (max_le_max h le_rfl) le_rfl
        have hc : ((min (max d1 366) 3650 : Int) : ℚ) ≤ ((min (max d2 366) 3650 : Int) : ℚ) := by
          exact_mod_cast hm
        have : (((min (max d1 366) 3650 : Int) : ℚ) - 366) / (3650 - 366) * (10 - 1) ≤
            (((min (max d2 366) 3650 : Int) : ℚ) - 366) / (3650 - 366) * (10 - 1) := by
          nlinarith
        exact add_le_add_right (jsRound_mono this) 1)

/-- Witness for C8 inside region 2 (months): day counts 40 and 300. -/
theorem step_index_monotone_witness :
    (40 : Int) ≤ 300 ∧ ((2 : Int) = 4 ∨ (2 : Int) = 3 ∨ (2 : Int) = 2 ∨ (2 : Int) = 1) ∧
      regionLoDays 2 ≤ 40 ∧ (300 : Int) ≤ regionHiDays 2 ∧
      remainingToStep .months 40 ≤ remainingToStep .months 300 ∧
      (V1.bucketFromDays (some 40)).unitIndex ≤ (V1.bucketFromDays (some 300)).unitIndex := by
  have h := step_index_monotone .months 40 300 (by norm_num) 2
    (by norm_num) (by decide) (by decide)
  exact ⟨by norm_num, by norm_num, by decide, by decide, h.1, h.2⟩

end GPlanner

namespace GPlanner

/-! ## Shared facts about the bucketing engine and day counts -/

/-- A day count that classifies into a region is at least 1. -/
theorem bucketFromDays_pos {d : Int} {p : Placement}
    (h : bucketFromDays d = some p) : 1 ≤ d := by
  unfold bucketFromDays at h
  split_ifs at h with h1 h2 h3 h4 <;> omega

/-- A day count that classifies is at most 3650. -/
theorem bucketFromDays_le {d : Int} {p : Placement}
    (h : bucketFromDays d = some p) : d ≤ 3650 := by
  unfold bucketFromDays at h
  split_ifs at h with h1 h2 h3 h4 <;> omega

/-- A non-positive day count never classifies. -/
theorem bucketFromDays_eq_none_of_nonpos {d : Int} (h : d ≤ 0) :
    bucketFromDays d = none := by
  unfold bucketFromDays
  split_ifs with h1 h2 h3 h4 <;> first | rfl | (exfalso; omega)

/-- `stepToRemainingDays` always yields at least 1. -/
theorem stepToRemainingDays_pos (b : TimeBucket) (s : Int) :
    1 ≤ stepToRemainingDays b s := by
  cases b <;> simp [stepToRemainingDays] <;> omega

/-- A numeric `Math.max(1, ·)` value is at least 1. -/
theorem jsMax1_some_ge {x : JSNum} {v : Int} (h : jsMax1 x = some v) : 1 ≤ v := by
  cases x with
  | none => exact absurd h (by simp [jsMax1])
  | some w =>
    have hv : max 1 w = v := by simpa [jsMax1] using h
    exact hv ▸ le_max_left 1 w

/-! ## C4: rejection of unclassifiable deadlines on Add/Edit -/

/-- C4 counterexample.  An empty deadline on manual Add is rejected by the
silent early return `if (!newDeadline || !newTask.trim()) return;`
(page.tsx:5732): the result is `noop` — no alert, no message naming the
valid range — even though the task text is nonempty. -/
theorem addTask_empty_deadline_silent :
    addTask ("2025-01-01".data) [] ⟨10, 10, 10, 10⟩
      ⟨[], "work".data, [], [], []⟩ ("id1".data) ("C1".data) = .noop ∧
    tasksAfterAdd ("2025-01-01".data) [] ⟨10, 10, 10, 10⟩
      ⟨[], "work".data, [], [], []⟩ ("id1".data) ("C1".data) = [] := by
  constructor <;> rfl

/-- C4 (amended).  A *nonempty* deadline with nonempty task text whose day
offset does not classify (`d ≤ 0`, `d > 3650`, or unparseable) makes
`addTask` alert with the message naming the 1-day–10-years range and leave
the task list unchanged; `saveEdit` does the same with its message for any
edited task whose deadline does not classify; an empty deadline (or blank
task text) on Add is instead rejected silently, with no message. -/
theorem add_edit_reject_invalid_deadline (today : Str) (tasks : List Task)
    (m : MaxPerRegion) (form : AddForm) (newId createdAt : Str) (et : Task) :
    (form.newDeadline ≠ [] → jsTrim form.newTask ≠ [] →
      bucketFromDaysNum (diffInDays today form.newDeadline) = none →
      addTask today tasks m form newId createdAt = .alerted rangeAlertMsg ∧
        tasksAfterAdd today tasks m form newId createdAt = tasks) ∧
    (bucketFromDaysNum (diffInDays today et.deadline) = none →
      saveEdit today tasks (some et) = .alerted editRangeAlertMsg ∧
        tasksAfterEdit today tasks (some et) = tasks) ∧
    ((form.newDeadline = [] ∨ jsTrim form.newTask = []) →
      addTask today tasks m form newId createdAt = .noop ∧
        tasksAfterAdd today tasks m form newId createdAt = tasks) := by
  refine ⟨?_, ?_, ?_⟩
  · intro hd ht hb
    have hcond : ¬ (form.newDeadline = [] ∨ jsTrim form.newTask = []) := by
      rintro (h | h) <;> [exact hd h; exact ht h]
    have : addTask today tasks m form newId createdAt = .alerted rangeAlertMsg := by
      simp only [addTask, if_neg hcond, hb]
    exact ⟨this, by unfold tasksAfterAdd; rw [this]⟩
  · intro hb
    have : saveEdit today tasks (some et) = .alerted editRangeAlertMsg := by
      simp only [saveEdit, hb]
    exact ⟨this, by unfold tasksAfterEdit; rw [this]⟩
  · intro hcond
    have : addTask today tasks m form newId createdAt = .noop := by
      simp only [addTask, if_pos hcond]
    exact ⟨this, by unfold tasksAfterAdd; rw [this]⟩

/-- Witness for C4 (amended): a deadline 4000 days out is rejected with the
range alert on Add and Edit; an empty deadline is rejected silently. -/
theorem add_edit_reject_invalid_deadline_witness :
    (("2035-12-15".data : Str) ≠ [] ∧
      jsTrim ("work".data) ≠ [] ∧
      bucketFromDaysNum (diffInDays ("2025-01-01".data) ("2035-12-15".data)) = none ∧
      addTask ("2025-01-01".data) [] ⟨10, 10, 10, 10⟩
        ⟨"2035-12-15".data, "work".data, [], [], []⟩ ("id1".data) ("C1".data) =
          .alerted rangeAlertMsg) ∧
    (saveEdit ("2025-01-01".data)
        [mkSampleTask ("a".data) ("2025-01-04".data) 4 .days (some 3)]
        (some (mkSampleTask ("a".data) ("2035-12-15".data) 4 .days (some 3))) =
      .alerted editRangeAlertMsg) := by
  have h := add_edit_reject_invalid_deadline ("2025-01-01".data) [] ⟨10, 10, 10, 10⟩
    ⟨"2035-12-15".data, "work".data, [], [], []⟩ ("id1".data) ("C1".data)
    (mkSampleTask ("a".data) ("2035-12-15".data) 4 .days (some 3))
  have h2 := add_edit_reject_invalid_deadline ("2025-01-01".data)
    [mkSampleTask ("a".data) ("2025-01-04".data) 4 .days (some 3)] ⟨10, 10, 10, 10⟩
    ⟨"2035-12-15".data, "work".data, [], [], []⟩ ("id1".data) ("C1".data)
    (mkSampleTask ("a".data) ("2035-12-15".data) 4 .days (some 3))
  refine ⟨⟨by decide, by decide, by decide, ?_⟩, ?_⟩
  · exact (h.1 (by decide) (by decide) (by decide)).1
  · exact (h2.2.1 (by decide)).1

end GPlanner

namespace GPlanner

/-! ## C6: capacity enforcement -/

/-- C6 counterexample.  `saveEdit` has no capacity check: with
`maxPerRegion[4] = 2` and two active region-4 tasks, editing a third
(region-3) task to a region-4 deadline is not rejected — the mutation is
applied and region 4 ends up holding 3 active tasks. -/
theorem saveEdit_capacity_counterexample :
    maxFor ⟨10, 10, 10, 2⟩ 4 = 2 ∧
    ((([mkSampleTask ("a".data) ("2025-01-03".data) 4 .days (some 2),
        mkSampleTask ("b".data) ("2025-01-05".data) 4 .days (some 4),
        mkSampleTask ("c".data) ("2025-01-15".data) 3 .weeks (some 14)] : List Task).filter
        (fun t => t.region == 4 && t.finishedAt == none)).length : Int) = 2 ∧
    (match saveEdit ("2025-01-01".data)
        [mkSampleTask ("a".data) ("2025-01-03".data) 4 .days (some 2),
         mkSampleTask ("b".data) ("2025-01-05".data) 4 .days (some 4),
         mkSampleTask ("c".data) ("2025-01-15".data) 3 .weeks (some 14)]
        (some (mkSampleTask ("c".data) ("2025-01-04".data) 3 .weeks (some 14))) with
      | .saved ts => ((ts.filter (fun t => t.region == 4 && t.finishedAt == none)).length : Int)
      | _ => (0 : Int)) = (3 : Int) := by
  refine ⟨by decide, by decide, by decide⟩

/-- C6 (amended).  `addTask` (but not `saveEdit`) enforces the capacity
invariant: when the target region already holds at least its configured
maximum of active tasks, the add is rejected with the capacity alert and
the task list is unchanged. -/
theorem addTask_capacity_reject (today : Str) (tasks : List Task)
    (m : MaxPerRegion) (form : AddForm) (newId createdAt : Str) (info : Placement)
    (hd : form.newDeadline ≠ []) (ht : jsTrim form.newTask ≠ [])
    (hb : bucketFromDaysNum (diffInDays today form.newDeadline) = some info)
    (hcap : ((tasks.filter
        (fun t => t.region == info.region && t.finishedAt == none)).length : Int) ≥
      maxFor m info.region) :
    addTask today tasks m form newId createdAt =
      .alerted (capacityMsg info.region (maxFor m info.region)) ∧
    tasksAfterAdd today tasks m form newId createdAt = tasks := by
  have hcond : ¬ (form.newDeadline = [] ∨ jsTrim form.newTask = []) := by
    rintro (h | h) <;> [exact hd h; exact ht h]
  have h1 : addTask today tasks m form newId createdAt =
      .alerted (capacityMsg info.region (maxFor m info.region)) := by
    simp only [addTask, if_neg hcond, hb, if_pos hcap]
  exact ⟨h1, by unfold tasksAfterAdd; rw [h1]⟩

/-- Witness for C6 (amended), the scenario of the claim: `maxPerRegion[4]
= 2`, two existing active region-4 tasks, and a third task with a region-4
deadline (3 days out) — the add is rejected and the list is unchanged. -/
theorem addTask_capacity_reject_witness :
    bucketFromDaysNum (diffInDays ("2025-01-01".data) ("2025-01-04".data)) =
      some ⟨4, .days⟩ ∧
    addTask ("2025-01-01".data)
      [mkSampleTask ("a".data) ("2025-01-03".data) 4 .days (some 2),
       mkSampleTask ("b".data) ("2025-01-05".data) 4 .days (some 4)]
      ⟨10, 10, 10, 2⟩ ⟨"2025-01-04".data, "work".data, [], [], []⟩
      ("id3".data) ("C3".data) = .alerted (capacityMsg 4 2) ∧
    tasksAfterAdd ("2025-01-01".data)
      [mkSampleTask ("a".data) ("2025-01-03".data) 4 .days (some 2),
       mkSampleTask ("b".data) ("2025-01-05".data) 4 .days (some 4)]
      ⟨10, 10, 10, 2⟩ ⟨"2025-01-04".data, "work".data, [], [], []⟩
      ("id3".data) ("C3".data) =
      [mkSampleTask ("a".data) ("2025-01-03".data) 4 .days (some 2),
       mkSampleTask ("b".data) ("2025-01-05".data) 4 .days (some 4)] := by
  have h := addTask_capacity_reject ("2025-01-01".data)
    [mkSampleTask ("a".data) ("2025-01-03".data) 4 .days (some 2),
     mkSampleTask ("b".data) ("2025-01-05".data) 4 .days (some 4)]
    ⟨10, 10, 10, 2⟩ ⟨"2025-01-04".data, "work".data, [], [], []⟩
    ("id3".data) ("C3".data) ⟨4, .days⟩
    (by decide) (by decide) (by decide) (by decide)
  exact ⟨by decide, h.1, h.2⟩

end GPlanner

namespace GPlanner

/-! ## C7: drag behavior -/

/-- C7 (amended).  A pointer drag never changes any task's region or
bucket: `handleDotPointerMove` only rewrites the dragged task's
`remainingDays` (to a step-quantized value inside its *current* bucket)
and its deadline; the list length and every task's region and bucket are
preserved, for every drop position. -/
theorem drag_keeps_region_and_bucket (size : ℚ) (today : Str)
    (dragId : Option Str) (dist : ℚ) (tasks : List Task) (i : Nat)
    (dtask : Task) :
    (handleDotPointerMove size today dragId dist tasks).length = tasks.length ∧
    ((handleDotPointerMove size today dragId dist tasks).getD i dtask).region =
      (tasks.getD i dtask).region ∧
    ((handleDotPointerMove size today dragId dist tasks).getD i dtask).bucket =
      (tasks.getD i dtask).bucket := by
  cases dragId with
  | none => exact ⟨rfl, rfl, rfl⟩
  | some dId =>
    by_cases hd : dist < 5
    · simp [handleDotPointerMove, hd]
    · simp only [handleDotPointerMove, if_neg hd]
      refine ⟨by simp, ?_, ?_⟩ <;>
      · induction tasks generalizing i with
        | nil => cases i <;> rfl
        | cons t ts ih =>
          cases i with
          | zero =>
            simp only [List.map_cons, List.getD_cons_zero]
            split <;> rfl
          | succ n => simpa using ih n

/-- C7 counterexample.  The dot of a 7-days-remaining weeks task occupies
step 1 of region 3.  Dragging another region-3 (weeks) task exactly onto
that dot's position (distance `dotPositionRadius 900 .weeks 7` from the
center) leaves its region at 3 and its bucket at `weeks`, and sets its
remaining-day count to 7 — which reclassifies under `bucketFromDays` to
region 4 (days), not to `(region 3, step 1)` as the claim requires. -/
theorem drag_inverse_counterexample :
    remainingToStep .weeks 7 = 1 ∧
    dotPositionRadius 900 .weeks 7 = 3783 / 10 ∧
    handleDotPointerMove 900 ("2025-01-01".data) (some ("w2".data))
        ((3783 : ℚ) / 10)
        [mkSampleTask ("w1".data) ("2025-01-08".data) 3 .weeks (some 7),
         mkSampleTask ("w2".data) ("2025-01-29".data) 3 .weeks (some 28)] =
      [mkSampleTask ("w1".data) ("2025-01-08".data) 3 .weeks (some 7),
       { mkSampleTask ("w2".data) ("2025-01-29".data) 3 .weeks (some 28) with
         remainingDays := some 7
         deadline := "2025-01-08".data }] ∧
    bucketFromDays 7 = some ⟨4, .days⟩ := by
  refine ⟨by norm_num [remainingToStep, stepsForBucket, jsRound], ?_, ?_, by decide⟩
  · norm_num [dotPositionRadius, geometryMaxR, minRadiusFactor, ringRadii,
      radiusFactorRange, maxRadiusFactor, urgencyProgress, remainingToStep,
      stepsForBucket, jsRound]
  · have h5 : ¬ ((3783 : ℚ) / 10 < 5) := by norm_num
    simp only [handleDotPointerMove, if_neg h5, List.map_cons, List.map_nil]
    norm_num [mkSampleTask, geometryMaxR, minRadiusFactor, ringRadii,
      radiusFactorRange, maxRadiusFactor, jsRound, stepsForBucket,
      stepToRemainingDays]
    constructor
    · decide
    · decide

end GPlanner

namespace GPlanner

/-! ## C9: positivity of remainingDays -/

/-- The `remainingDays` a CSV row decodes to is always a `Math.max(1, ·)`
value (of the recomputed day count or of the stored column). -/
theorem parseCSVRowFromCols_remainingDays (idxs : CSVIdxs) (today nowTs : Str)
    (i : Nat) (cols : List Str) :
    ∃ x, (parseCSVRowFromCols idxs today nowTs i cols).remainingDays = jsMax1 x := by
  cases hrec : bucketFromDaysNum (diffInDays today
      ((normalizeDateInput (some (colAt cols idxs.idxDeadline))).getD
        ((normalizeDateInput (some (colAt cols idxs.idxDate))).getD today))) with
  | none =>
    exact ⟨jsParseInt (if colAt cols idxs.idxRemaining = [] then "1".data
        else colAt cols idxs.idxRemaining),
      by simp [parseCSVRowFromCols, hrec]⟩
  | some p =>
    exact ⟨diffInDays today
        ((normalizeDateInput (some (colAt cols idxs.idxDeadline))).getD
          ((normalizeDateInput (some (colAt cols idxs.idxDate))).getD today)),
      by simp [parseCSVRowFromCols, hrec]⟩

/-- Every task produced by the `parseCSV` loop carries a `Math.max(1, ·)`
`remainingDays`. -/
theorem parseCSVGo_remainingDays (idxs : CSVIdxs) (headerLen : Nat)
    (today nowTs : Str) (i : Nat) (ls : List Str) :
    ∀ t ∈ parseCSVGo idxs headerLen today nowTs i ls,
      ∃ x, t.remainingDays = jsMax1 x := by
  induction ls generalizing i with
  | nil => intro t ht; simp [parseCSVGo] at ht
  | cons raw rest ih =>
    intro t ht
    unfold parseCSVGo at ht
    by_cases h1 : jsTrim raw = []
    · rw [if_pos h1] at ht
      exact ih (i + 1) t ht
    · simp only [if_neg h1] at ht
      split_ifs at ht with h2
      · exact ih (i + 1) t ht
      · rcases List.mem_cons.mp ht with rfl | hmem
        · exact parseCSVRowFromCols_remainingDays idxs today nowTs i _
        · exact ih (i + 1) t hmem

/-- C9 (amended).  Whenever an operation produces a *numeric*
`remainingDays`, that value is at least 1: the task appended by `addTask`,
the task rewritten by `saveEdit`, every task after a pointer drag, and
every task decoded by `parseCSV` has `remainingDays ≥ 1` or is an
untouched member of the input list — but CSV import does not clamp a
today-or-past deadline to exactly 1 (it falls back to `max(1, stored)`),
and a non-numeric stored column with an unclassifiable deadline yields
NaN rather than a number (see the counterexample). -/
theorem remainingDays_ge_one (today nowTs text : Str) (tasks : List Task)
    (m : MaxPerRegion) (form : AddForm) (newId createdAt : Str)
    (et : Option Task) (size : ℚ) (dragId : Option Str) (dist : ℚ) :
    (∀ ts, addTask today tasks m form newId createdAt = .added ts →
      ∀ t ∈ ts, t ∈ tasks ∨ ∃ v, t.remainingDays = some v ∧ 1 ≤ v) ∧
    (∀ ts, saveEdit today tasks et = .saved ts →
      ∀ t ∈ ts, t ∈ tasks ∨ ∃ v, t.remainingDays = some v ∧ 1 ≤ v) ∧
    (∀ t ∈ handleDotPointerMove size today dragId dist tasks,
      t ∈ tasks ∨ ∃ v, t.remainingDays = some v ∧ 1 ≤ v) ∧
    (∀ t ∈ parseCSV today nowTs text, ∀ v, t.remainingDays = some v → 1 ≤ v) := by
  refine ⟨?_, ?_, ?_, ?_⟩
  · intro ts hts t ht
    unfold addTask at hts
    by_cases h1 : (form.newDeadline = [] ∨ jsTrim form.newTask = [])
    · rw [if_pos h1] at hts
      exact absurd hts (by simp)
    · simp only [if_neg h1] at hts
      cases hdiff : diffInDays today form.newDeadline with
      | none =>
        rw [hdiff] at hts
        simp only [bucketFromDaysNum] at hts
        exact absurd hts (by simp)
      | some d =>
        rw [hdiff] at hts
        cases hrec : bucketFromDays d with
        | none =>
          simp only [bucketFromDaysNum, hrec] at hts
          exact absurd hts (by simp)
        | some info =>
          simp only [bucketFromDaysNum, hrec] at hts
          split_ifs at hts with hcap htag <;>
            cases hts <;>
            (refine (List.mem_append.mp ht).imp id (fun hnew => ?_)
             rcases List.mem_singleton.mp hnew with rfl
             exact ⟨d, rfl, bucketFromDays_pos hrec⟩)
  · intro ts hts t ht
    cases et with
    | none => exact absurd hts (by simp [saveEdit])
    | some e =>
      simp only [saveEdit] at hts
      cases hdiff : diffInDays today e.deadline with
      | none =>
        rw [hdiff] at hts
        simp only [bucketFromDaysNum] at hts
        exact absurd hts (by simp)
      | some d =>
        rw [hdiff] at hts
        cases hrec : bucketFromDays d with
        | none =>
          simp only [bucketFromDaysNum, hrec] at hts
          exact absurd hts (by simp)
        | some info =>
          simp only [bucketFromDaysNum, hrec] at hts
          injection hts with hts
          subst hts
          rcases List.mem_map.mp ht with ⟨orig, horig, hEq⟩
          by_cases hid : orig.id = e.id
          · rw [if_pos hid] at hEq
            exact Or.inr ⟨d, by rw [← hEq], bucketFromDays_pos hrec⟩
          · rw [if_neg hid] at hEq
            exact Or.inl (hEq ▸ horig)
  · intro t ht
    cases dragId with
    | none => exact Or.inl ht
    | some dId =>
      by_cases hd : dist < 5
      · simp only [handleDotPointerMove, if_pos hd] at ht
        exact Or.inl ht
      · simp only [handleDotPointerMove, if_neg hd] at ht
        rcases List.mem_map.mp ht with ⟨orig, horig, hEq⟩
        by_cases hid : orig.id ≠ dId
        · rw [if_pos hid] at hEq
          exact Or.inl (hEq ▸ horig)
        · rw [if_neg hid] at hEq
          exact Or.inr ⟨_, by rw [← hEq], stepToRemainingDays_pos _ _⟩
  · intro t ht v hv
    simp only [parseCSV] at ht
    split_ifs at ht with hlen
    · simp at ht
    · obtain ⟨x, hx⟩ := parseCSVGo_remainingDays _ _ today nowTs 1 _ t ht
      rw [hx] at hv
      exact jsMax1_some_ge hv

end GPlanner

namespace GPlanner

/-- Witness for C9 (amended) at concrete inputs: a concrete add and a
concrete CSV import. -/
theorem remainingDays_ge_one_witness :
    (∀ ts, addTask ("2025-01-01".data)
        [mkSampleTask ("a".data) ("2025-01-03".data) 4 .days (some 2)]
        ⟨10, 10, 10, 10⟩ ⟨"2025-01-04".data, "work".data, [], [], []⟩
        ("id3".data) ("C3".data) = .added ts →
      ∀ t ∈ ts, t ∈ [mkSampleTask ("a".data) ("2025-01-03".data) 4 .days (some 2)] ∨
        ∃ v, t.remainingDays = some v ∧ 1 ≤ v) ∧
    (∀ t ∈ parseCSV ("2025-01-01".data) ("NOW".data)
        (("id,date,deadline,project,projectTag,projectColor,task,region,bucket,remainingDays,createdAt,finishedAt\nt1,2025-01-01,2025-01-11,proj,,,x,1,years,999,C,").data),
      ∀ v, t.remainingDays = some v → 1 ≤ v) :=
  ⟨(remainingDays_ge_one ("2025-01-01".data) ("NOW".data)
      (("id,date,deadline,project,projectTag,projectColor,task,region,bucket,remainingDays,createdAt,finishedAt\nt1,2025-01-01,2025-01-11,proj,,,x,1,years,999,C,").data)
      [mkSampleTask ("a".data) ("2025-01-03".data) 4 .days (some 2)]
      ⟨10, 10, 10, 10⟩ ⟨"2025-01-04".data, "work".data, [], [], []⟩
      ("id3".data) ("C3".data) none 900 none 0).1,
   (remainingDays_ge_one ("2025-01-01".data) ("NOW".data)
      (("id,date,deadline,project,projectTag,projectColor,task,region,bucket,remainingDays,createdAt,finishedAt\nt1,2025-01-01,2025-01-11,proj,,,x,1,years,999,C,").data)
      [mkSampleTask ("a".data) ("2025-01-03".data) 4 .days (some 2)]
      ⟨10, 10, 10, 10⟩ ⟨"2025-01-04".data, "work".data, [], [], []⟩
      ("id3".data) ("C3".data) none 900 none 0).2.2.2⟩

set_option maxRecDepth 40000 in
/-- C9 counterexample.  CSV import can admit a task whose `remainingDays`
is NaN (an ISO-shaped but invalid deadline, so recomputation fails, plus a
non-numeric stored `remainingDays` column), and a row whose deadline *is*
today decodes to `remainingDays = max(1, stored) = 50`, not to the claimed
clamp value 1. -/
theorem remainingDays_nan_counterexample :
    ((parseCSV ("2025-01-01".data) ("NOW".data)
        (("id,date,deadline,project,projectTag,projectColor,task,region,bucket,remainingDays,createdAt,finishedAt\nt3,2025-01-01,2025-99-99,proj,,,x,9,junk,garbage,C,").data)).map
      (fun t => t.remainingDays)) = [none] ∧
    ((parseCSV ("2025-01-01".data) ("NOW".data)
        (("id,date,deadline,project,projectTag,projectColor,task,region,bucket,remainingDays,createdAt,finishedAt\nt2,2025-01-01,2025-01-01,proj,,,x,2,months,50,C,").data)).map
      (fun t => (t.remainingDays, diffInDays ("2025-01-01".data) t.deadline))) =
      [(some 50, some 0)] := by
  constructor
  · decide
  · decide

end GPlanner

namespace GPlanner

/-! ## C2: decode recomputes placement from (today, deadline) -/

/-- A decoded row's placement comes from the Bucketing Engine whenever the
day offset of its decoded deadline classifies. -/
theorem parseCSVRowFromCols_recompute (idxs : CSVIdxs) (today nowTs : Str)
    (i : Nat) (cols : List Str) (p : Placement)
    (h : bucketFromDaysNum (diffInDays today
        (parseCSVRowFromCols idxs today nowTs i cols).deadline) = some p) :
    (parseCSVRowFromCols idxs today nowTs i cols).region = p.region ∧
    (parseCSVRowFromCols idxs today nowTs i cols).bucket = p.bucket ∧
    (parseCSVRowFromCols idxs today nowTs i cols).remainingDays =
      jsMax1 (diffInDays today (parseCSVRowFromCols idxs today nowTs i cols).deadline) := by
  have hdl : (parseCSVRowFromCols idxs today nowTs i cols).deadline =
      (normalizeDateInput (some (colAt cols idxs.idxDeadline))).getD
        ((normalizeDateInput (some (colAt cols idxs.idxDate))).getD today) := rfl
  rw [hdl] at h ⊢
  cases hrec : bucketFromDaysNum (diffInDays today
      ((normalizeDateInput (some (colAt cols idxs.idxDeadline))).getD
        ((normalizeDateInput (some (colAt cols idxs.idxDate))).getD today))) with
  | none => rw [hrec] at h; exact absurd h (by simp)
  | some q =>
    rw [hrec] at h
    injection h with h
    subst h
    refine ⟨?_, ?_, ?_⟩ <;> simp [parseCSVRowFromCols, hrec]

/-- Loop version of `parseCSVRowFromCols_recompute`. -/
theorem parseCSVGo_recompute (idxs : CSVIdxs) (headerLen : Nat)
    (today nowTs : Str) (i : Nat) (ls : List Str) :
    ∀ t ∈ parseCSVGo idxs headerLen today nowTs i ls, ∀ p : Placement,
      bucketFromDaysNum (diffInDays today t.deadline) = some p →
      t.region = p.region ∧ t.bucket = p.bucket ∧
        t.remainingDays = jsMax1 (diffInDays today t.deadline) := by
  induction ls generalizing i with
  | nil => intro t ht; simp [parseCSVGo] at ht
  | cons raw rest ih =>
    intro t ht p hp
    unfold parseCSVGo at ht
    by_cases h1 : jsTrim raw = []
    · rw [if_pos h1] at ht
      exact ih (i + 1) t ht p hp
    · simp only [if_neg h1] at ht
      split_ifs at ht with h2
      · exact ih (i + 1) t ht p hp
      · rcases List.mem_cons.mp ht with rfl | hmem
        · exact parseCSVRowFromCols_recompute idxs today nowTs i _ p hp
        · exact ih (i + 1) t hmem p hp

/-- C2 (amended).  Every task decoded by `parseCSV` whose decoded deadline
gives a day offset that *classifies* (`bucketFromDays` non-null, i.e.
`1 ≤ d ≤ 3650`) carries the recomputed region, bucket and
`max(1, d)` remaining days, ignoring the file's stored columns.  When the
offset does not classify — unparseable deadline, or a parseable deadline
with `d ≤ 0` or `d > 3650` — the stored values are the fallback.  In
particular a row whose deadline is 10 days from today decodes to region 3
(weeks), never to the stored region — not to region 4 as the claim put it. -/
theorem parseCSV_recomputes_placement (today nowTs text : Str) :
    ∀ t ∈ parseCSV today nowTs text, ∀ p : Placement,
      bucketFromDaysNum (diffInDays today t.deadline) = some p →
      t.region = p.region ∧ t.bucket = p.bucket ∧
        t.remainingDays = jsMax1 (diffInDays today t.deadline) := by
  intro t ht p hp
  simp only [parseCSV] at ht
  split_ifs at ht with hlen
  · simp at ht
  · exact parseCSVGo_recompute _ _ today nowTs 1 _ t ht p hp

set_option maxRecDepth 40000 in
/-- Witness for C2 (amended): the 10-days-out row with stored region 1
decodes to the recomputed region 3 (weeks) with 10 remaining days. -/
theorem parseCSV_recomputes_placement_witness :
    decodedWeeksRow ∈ parseCSV ("2025-01-01".data) ("NOW".data)
      (stdCSVHeader ++ '\n' :: "t1,2025-01-01,2025-01-11,proj,,,x,1,years,999,C,".data) ∧
    bucketFromDaysNum (diffInDays ("2025-01-01".data) decodedWeeksRow.deadline) =
      some ⟨3, .weeks⟩ ∧
    decodedWeeksRow.region = 3 ∧ decodedWeeksRow.bucket = .weeks ∧
    decodedWeeksRow.remainingDays =
      jsMax1 (diffInDays ("2025-01-01".data) decodedWeeksRow.deadline) := by
  have h := parseCSV_recomputes_placement ("2025-01-01".data) ("NOW".data)
    (stdCSVHeader ++ '\n' :: "t1,2025-01-01,2025-01-11,proj,,,x,1,years,999,C,".data)
    decodedWeeksRow (by decide) ⟨3, .weeks⟩ (by decide)
  exact ⟨by decide, by decide, h.1, h.2.1, h.2.2⟩

set_option maxRecDepth 40000 in
/-- C2 counterexample.  The row with `deadline` 10 days from today and
stored `region = 1` decodes to region 3 (weeks) — not to region 4 (days)
as the claim requires — and a row whose deadline parses to today
(`d = 0`) keeps the file's stored region 2 and bucket `months`, so the
stored values are *not* ignored for every successfully parsed deadline. -/
theorem parseCSV_stale_region_counterexample :
    ((parseCSV ("2025-01-01".data) ("NOW".data)
        (stdCSVHeader ++ '\n' :: "t1,2025-01-01,2025-01-11,proj,,,x,1,years,999,C,".data)).map
      (fun t => (t.region, diffInDays ("2025-01-01".data) t.deadline))) =
      [(3, some 10)] ∧
    ((parseCSV ("2025-01-01".data) ("NOW".data)
        (stdCSVHeader ++ '\n' :: "t2,2025-01-01,2025-01-01,proj,,,x,2,months,50,C,".data)).map
      (fun t => (t.region, t.bucket, diffInDays ("2025-01-01".data) t.deadline))) =
      [(2, .months, some 0)] := by
  constructor
  · decide
  · decide

end GPlanner

namespace GPlanner

/-! ## C5: CSV import of today-or-past deadlines -/

/-- `splitCSVLine` always pads up to the expected column count. -/
theorem splitCSVLine_length_ge (line : Str) (n : Nat) :
    n ≤ (splitCSVLine line n).length := by
  unfold splitCSVLine padCols
  simp only [List.length_append, List.length_replicate]
  omega

/-- The `parseCSV` loop decodes one task per line whose trimmed content is
nonempty (no row is ever rejected for its dates or numeric columns). -/
theorem parseCSVGo_length (idxs : CSVIdxs) (headerLen : Nat)
    (today nowTs : Str) (i : Nat) (ls : List Str)
    (h : ∀ l ∈ ls, jsTrim l ≠ []) :
    (parseCSVGo idxs headerLen today nowTs i ls).length = ls.length := by
  induction ls generalizing i with
  | nil => rfl
  | cons raw rest ih =>
    unfold parseCSVGo
    rw [if_neg (h raw (List.mem_cons_self raw rest))]
    simp only [if_neg (not_lt.mpr (splitCSVLine_length_ge raw headerLen)),
      List.length_cons]
    rw [ih (i + 1) (fun l hl => h l (List.mem_cons_of_mem raw hl))]

/-- C5 (amended).  CSV import never rejects a row for a today-or-past
deadline: `parseCSV` decodes one task per nonempty line.  For a row whose
decoded deadline parses to a day offset `d ≤ 0`, recomputation fails
(`bucketFromDays` is null there), so the decoded task falls back to the
file's stored columns: `remainingDays = max(1, parseInt(stored or "1"))`
— not the constant 1 — and `region` is the stored region when it is one
of 1/2/3/4, else 4.  The claimed unconditional clamp to
`remainingDays = 1`, region 4 does not happen when valid stored columns
are present. -/
theorem csv_import_nonpositive_policy (today nowTs text : Str)
    (idxs : CSVIdxs) (i : Nat) (cols : List Str) (d : Int) :
    (2 ≤ ((jsSplitLines text).filter (fun l => !(jsTrim l).isEmpty)).length →
      (parseCSV today nowTs text).length =
        ((jsSplitLines text).filter (fun l => !(jsTrim l).isEmpty)).length - 1) ∧
    (diffInDays today (parseCSVRowFromCols idxs today nowTs i cols).deadline = some d →
      d ≤ 0 →
      (parseCSVRowFromCols idxs today nowTs i cols).remainingDays =
        jsMax1 (jsParseInt (if colAt cols idxs.idxRemaining = [] then "1".data
          else colAt cols idxs.idxRemaining)) ∧
      (parseCSVRowFromCols idxs today nowTs i cols).region =
        (match jsParseInt (colAt cols idxs.idxRegion) with
         | some v => if v = 1 ∨ v = 2 ∨ v = 3 ∨ v = 4 then v else 4
         | none => 4)) := by
  constructor
  · intro hlen
    simp only [parseCSV]
    rw [if_neg (by omega)]
    have hmem : ∀ l ∈ ((jsSplitLines text).filter
        (fun l => !(jsTrim l).isEmpty)).drop 1, jsTrim l ≠ [] := by
      intro l hl
      have := List.of_mem_filter (List.drop_subset 1 _ hl)
      simpa [List.isEmpty_iff] using this
    rw [parseCSVGo_length _ _ today nowTs 1 _ hmem, List.length_drop]
  · intro hd hle
    have hdl : (parseCSVRowFromCols idxs today nowTs i cols).deadline =
        (normalizeDateInput (some (colAt cols idxs.idxDeadline))).getD
          ((normalizeDateInput (some (colAt cols idxs.idxDate))).getD today) := rfl
    rw [hdl] at hd
    have hrec : bucketFromDaysNum (diffInDays today
        ((normalizeDateInput (some (colAt cols idxs.idxDeadline))).getD
          ((normalizeDateInput (some (colAt cols idxs.idxDate))).getD today))) = none := by
      rw [hd]
      simpa [bucketFromDaysNum] using bucketFromDays_eq_none_of_nonpos hle
    constructor <;> simp [parseCSVRowFromCols, hrec]

set_option maxRecDepth 40000 in
/-- Witness for C5 (amended) on the concrete today-deadline row with
stored region 2 and stored remainingDays 50. -/
theorem csv_import_nonpositive_policy_witness :
    (2 ≤ ((jsSplitLines (stdCSVHeader ++
        '\n' :: "t2,2025-01-01,2025-01-01,proj,,,x,2,months,50,C,".data)).filter
        (fun l => !(jsTrim l).isEmpty)).length) ∧
    (parseCSV ("2025-01-01".data) ("NOW".data) (stdCSVHeader ++
        '\n' :: "t2,2025-01-01,2025-01-01,proj,,,x,2,months,50,C,".data)).length = 1 ∧
    (parseCSVRowFromCols (csvIdxsOf (jsSplitComma stdCSVHeader))
        ("2025-01-01".data) ("NOW".data) 1
        (splitCSVLine ("t2,2025-01-01,2025-01-01,proj,,,x,2,months,50,C,".data) 12)).remainingDays =
      some 50 ∧
    (parseCSVRowFromCols (csvIdxsOf (jsSplitComma stdCSVHeader))
        ("2025-01-01".data) ("NOW".data) 1
        (splitCSVLine ("t2,2025-01-01,2025-01-01,proj,,,x,2,months,50,C,".data) 12)).region = 2 := by
  have h := csv_import_nonpositive_policy ("2025-01-01".data) ("NOW".data)
    (stdCSVHeader ++ '\n' :: "t2,2025-01-01,2025-01-01,proj,,,x,2,months,50,C,".data)
    (csvIdxsOf (jsSplitComma stdCSVHeader)) 1
    (splitCSVLine ("t2,2025-01-01,2025-01-01,proj,,,x,2,months,50,C,".data) 12) 0
  have h2 := h.2 (by decide) (by decide)
  refine ⟨by decide, ?_, ?_, ?_⟩
  · rw [h.1 (by decide)]
    decide
  · rw [h2.1]
    decide
  · rw [h2.2]
    decide

set_option maxRecDepth 40000 in
/-- C5 counterexample.  A row whose parsed deadline is today (`d = 0`)
with stored region 2 and stored remainingDays 50 is imported as region 2
with `remainingDays = 50` — not clamped to region 4 / 1 day as claimed. -/
theorem csv_import_nonpositive_counterexample :
    ((parseCSV ("2025-01-01".data) ("NOW".data)
        (stdCSVHeader ++ '\n' :: "t5,2025-01-01,2025-01-01,proj,,,x,2,months,50,C,".data)).map
      (fun t => (t.region, t.remainingDays, diffInDays ("2025-01-01".data) t.deadline))) =
      [(2, some 50, some 0)] := by
  decide

end GPlanner

namespace GPlanner

/-! ## C3: CSV round trip — the line splitter inverts the field encoding -/

/-- The splitter consumes at least one character per fuel unit, so any two
sufficient fuels give the same run. -/
theorem splitCSVLineGo_fuel (fuel1 : Nat) : ∀ (fuel2 : Nat) (b : Bool)
    (cur : Str) (acc : List Str) (s : Str), s.length ≤ fuel1 → s.length ≤ fuel2 →
    splitCSVLineGo fuel1 b cur acc s = splitCSVLineGo fuel2 b cur acc s := by
  induction fuel1 with
  | zero =>
    intro fuel2 b cur acc s h1 h2
    have hs : s = [] := List.length_eq_zero.mp (Nat.le_zero.mp h1)
    subst hs
    cases fuel2 <;> rfl
  | succ f ih =>
    intro fuel2 b cur acc s h1 h2
    cases s with
    | nil => cases fuel2 <;> rfl
    | cons c rest =>
      cases fuel2 with
      | zero => exact absurd h2 (by simp)
      | succ g =>
        have hr1 : rest.length ≤ f := by simp at h1; omega
        have hr2 : rest.length ≤ g := by simp at h2; omega
        have ht1 : rest.tail.length ≤ f := by simp [List.length_tail]; omega
        have ht2 : rest.tail.length ≤ g := by simp [List.length_tail]; omega
        cases b <;> simp only [splitCSVLineGo] <;> split_ifs <;>
          first
          | exact ih g true (cur ++ ['"']) acc rest.tail ht1 ht2
          | exact ih g false cur acc rest hr1 hr2
          | exact ih g true (cur ++ [c]) acc rest hr1 hr2
          | exact ih g true cur acc rest hr1 hr2
          | exact ih g false [] (acc ++ [cur]) rest hr1 hr2
          | exact ih g false (cur ++ [c]) acc rest hr1 hr2

/-- Out-of-quotes consumption of a quote- and comma-free field followed by
a comma: the field lands in the current cell and a new cell starts. -/
theorem splitCSVLineGo_plain_comma (v : Str) : ∀ (cur : Str) (acc : List Str)
    (rest : Str) (fuel : Nat), '"' ∉ v → ',' ∉ v →
    (v ++ ',' :: rest).length ≤ fuel →
    splitCSVLineGo fuel false cur acc (v ++ ',' :: rest) =
      splitCSVLineGo rest.length false [] (acc ++ [cur ++ v]) rest := by
  induction v with
  | nil =>
    intro cur acc rest fuel _ _ hf
    cases fuel with
    | zero => exact absurd hf (by simp)
    | succ f =>
      have step : splitCSVLineGo (f + 1) false cur acc ([] ++ ',' :: rest) =
          splitCSVLineGo f false [] (acc ++ [cur]) rest := rfl
      rw [step]
      rw [splitCSVLineGo_fuel f rest.length false [] (acc ++ [cur]) rest
        (by simp at hf; omega) le_rfl]
      simp
  | cons c v ih =>
    intro cur acc rest fuel hq hc hf
    cases fuel with
    | zero => exact absurd hf (by simp)
    | succ f =>
      have hcq : ¬(c = '"') := fun h => hq (h ▸ List.mem_cons_self c v)
      have hcc : ¬(c = ',') := fun h => hc (h ▸ List.mem_cons_self c v)
      simp only [List.cons_append, splitCSVLineGo, if_neg hcq, if_neg hcc]
      rw [ih (cur ++ [c]) acc rest f
        (fun h => hq (List.mem_cons_of_mem c h))
        (fun h => hc (List.mem_cons_of_mem c h))
        (by simp at hf ⊢; omega)]
      simp [List.append_assoc]

/-- Out-of-quotes consumption of a quote- and comma-free final field. -/
theorem splitCSVLineGo_plain_end (v : Str) : ∀ (cur : Str) (acc : List Str)
    (fuel : Nat), '"' ∉ v → ',' ∉ v → v.length ≤ fuel →
    splitCSVLineGo fuel false cur acc v = acc ++ [cur ++ v] := by
  induction v with
  | nil =>
    intro cur acc fuel _ _ _
    cases fuel <;> simp [splitCSVLineGo]
  | cons c v ih =>
    intro cur acc fuel hq hc hf
    cases fuel with
    | zero => exact absurd hf (by simp)
    | succ f =>
      have hcq : ¬(c = '"') := fun h => hq (h ▸ List.mem_cons_self c v)
      have hcc : ¬(c = ',') := fun h => hc (h ▸ List.mem_cons_self c v)
      simp only [splitCSVLineGo, if_neg hcq, if_neg hcc]
      rw [ih (cur ++ [c]) acc f
        (fun h => hq (List.mem_cons_of_mem c h))
        (fun h => hc (List.mem_cons_of_mem c h))
        (by simp at hf ⊢; omega)]
      simp [List.append_assoc]

/-- In-quotes consumption of a doubled-quote field body up to its closing
quote (the character after the closing quote must not be another quote). -/
theorem splitCSVLineGo_inq (v : Str) : ∀ (cur : Str) (acc : List Str)
    (rest : Str) (fuel : Nat), rest.head? ≠ some '"' →
    (dblQuotes v ++ '"' :: rest).length ≤ fuel →
    splitCSVLineGo fuel true cur acc (dblQuotes v ++ '"' :: rest) =
      splitCSVLineGo rest.length false (cur ++ v) acc rest := by
  induction v with
  | nil =>
    intro cur acc rest fuel hh hf
    cases fuel with
    | zero => exact absurd hf (by simp [dblQuotes])
    | succ f =>
      have hstep : dblQuotes [] ++ '"' :: rest = '"' :: rest := by simp [dblQuotes]
      rw [hstep]
      simp only [splitCSVLineGo, if_pos rfl, if_neg hh]
      rw [splitCSVLineGo_fuel f rest.length false cur acc rest
        (by rw [hstep] at hf; simp at hf; omega) le_rfl]
      simp
  | cons c v ih =>
    intro cur acc rest fuel hh hf
    by_cases hcq : c = '"'
    · subst hcq
      cases fuel with
      | zero => exact absurd hf (by simp [dblQuotes])
      | succ f =>
        have hshape : dblQuotes ('"' :: v) ++ '"' :: rest =
            '"' :: '"' :: (dblQuotes v ++ '"' :: rest) := by
          simp [dblQuotes]
        rw [hshape]
        simp only [splitCSVLineGo, if_pos rfl, List.head?_cons, List.tail_cons]
        rw [ih (cur ++ ['"']) acc rest f hh (by
          rw [hshape] at hf
          simp at hf ⊢
          omega)]
        simp [List.append_assoc]
    · cases fuel with
      | zero => exact absurd hf (by simp [dblQuotes])
      | succ f =>
        have hshape : dblQuotes (c :: v) ++ '"' :: rest =
            c :: (dblQuotes v ++ '"' :: rest) := by
          simp [dblQuotes, hcq]
        rw [hshape]
        simp only [splitCSVLineGo, if_neg hcq]
        rw [ih (cur ++ [c]) acc rest f hh (by
          rw [hshape] at hf
          simp at hf ⊢
          omega)]
        simp [List.append_assoc]

end GPlanner

namespace GPlanner

/-- Characters of a doubled string are characters of the original. -/
theorem mem_of_mem_dblQuotes {c : Char} {d : Str} (h : c ∈ dblQuotes d) : c ∈ d := by
  induction d with
  | nil => simp [dblQuotes] at h
  | cons c0 d ih =>
    by_cases hc0 : c0 = '"'
    · subst hc0
      have hshape : dblQuotes ('"' :: d) = '"' :: '"' :: dblQuotes d := by
        simp [dblQuotes]
      rw [hshape] at h
      rcases List.mem_cons.mp h with rfl | h
      · exact List.mem_cons_self _ _
      · rcases List.mem_cons.mp h with rfl | h
        · exact List.mem_cons_self _ _
        · exact List.mem_cons_of_mem _ (ih h)
    · have hshape : dblQuotes (c0 :: d) = c0 :: dblQuotes d := by
        simp [dblQuotes, hc0]
      rw [hshape] at h
      rcases List.mem_cons.mp h with rfl | h
      · exact List.mem_cons_self _ _
      · exact List.mem_cons_of_mem _ (ih h)

/-- Doubling a quote-free string is the identity. -/
theorem dblQuotes_eq_self {d : Str} (h : '"' ∉ d) : dblQuotes d = d := by
  induction d with
  | nil => rfl
  | cons c0 d ih =>
    have hc0 : ¬(c0 = '"') := fun hEq => h (hEq ▸ List.mem_cons_self c0 d)
    simp only [dblQuotes, if_neg hc0, List.cons_append, List.nil_append]
    rw [ih (fun hm => h (List.mem_cons_of_mem c0 hm))]

/-- `List.contains` from membership (Char lists). -/
theorem contains_eq_true_of_mem {c : Char} {v : Str} (h : c ∈ v) :
    v.contains c = true := by
  rw [List.contains_eq_any_beq]
  exact List.any_beq.mpr h

/-- A field that does not need quoting contains no comma, quote or newline. -/
theorem not_needsQuote_spec {v : Str} (h : ¬(needsQuote v = true)) :
    '"' ∉ v ∧ ',' ∉ v ∧ '\n' ∉ v := by
  simp only [needsQuote, decide_eq_true_eq, not_or] at h
  obtain ⟨h1, h2, h3⟩ := h
  exact ⟨fun hm => h2 (contains_eq_true_of_mem hm),
    fun hm => h1 (contains_eq_true_of_mem hm),
    fun hm => h3 (contains_eq_true_of_mem hm)⟩

end GPlanner

namespace GPlanner

/-- Characters survive quote doubling. -/
theorem mem_dblQuotes_of_mem {c : Char} {d : Str} (h : c ∈ d) : c ∈ dblQuotes d := by
  induction d with
  | nil => simp at h
  | cons c0 d ih =>
    rcases List.mem_cons.mp h with rfl | hm
    · by_cases hc0 : c = '"'
      · subst hc0
        simp [dblQuotes]
      · simp [dblQuotes, hc0]
    · by_cases hc0 : c0 = '"'
      · subst hc0
        have hshape : dblQuotes ('"' :: d) = '"' :: '"' :: dblQuotes d := by
          simp [dblQuotes]
        rw [hshape]
        exact List.mem_cons_of_mem _ (List.mem_cons_of_mem _ (ih hm))
      · have hshape : dblQuotes (c0 :: d) = c0 :: dblQuotes d := by
          simp [dblQuotes, hc0]
        rw [hshape]
        exact List.mem_cons_of_mem _ (ih hm)

/-- Full consumption of a quoted, quote-doubled field followed by a comma. -/
theorem splitCSVLineGo_quoted_comma (v : Str) (cur : Str) (acc : List Str)
    (rest : Str) (fuel : Nat)
    (hf : ('"' :: dblQuotes v ++ '"' :: ',' :: rest).length ≤ fuel) :
    splitCSVLineGo fuel false cur acc ('"' :: dblQuotes v ++ '"' :: ',' :: rest) =
      splitCSVLineGo rest.length false [] (acc ++ [cur ++ v]) rest := by
  cases fuel with
  | zero => exact absurd hf (by simp)
  | succ f =>
    have step : splitCSVLineGo (f + 1) false cur acc
        ('"' :: (dblQuotes v ++ '"' :: ',' :: rest)) =
        splitCSVLineGo f true cur acc (dblQuotes v ++ '"' :: ',' :: rest) := rfl
    rw [List.cons_append, step]
    rw [splitCSVLineGo_inq v cur acc (',' :: rest) f (by simp)
      (by simp at hf ⊢; omega)]
    have step2 : splitCSVLineGo (rest.length + 1) false (cur ++ v) acc
        (',' :: rest) =
        splitCSVLineGo rest.length false [] (acc ++ [cur ++ v]) rest := rfl
    simpa using step2

/-- Full consumption of a quoted, quote-doubled final field. -/
theorem splitCSVLineGo_quoted_end (v : Str) (cur : Str) (acc : List Str)
    (fuel : Nat) (hf : ('"' :: dblQuotes v ++ ['"']).length ≤ fuel) :
    splitCSVLineGo fuel false cur acc ('"' :: dblQuotes v ++ ['"']) =
      acc ++ [cur ++ v] := by
  cases fuel with
  | zero => exact absurd hf (by simp)
  | succ f =>
    have step : splitCSVLineGo (f + 1) false cur acc
        ('"' :: (dblQuotes v ++ ['"'])) =
        splitCSVLineGo f true cur acc (dblQuotes v ++ ['"']) := rfl
    rw [List.cons_append, step]
    have hsh : dblQuotes v ++ ['"'] = dblQuotes v ++ '"' :: ([] : Str) := rfl
    rw [hsh]
    rw [splitCSVLineGo_inq v cur acc [] f (by simp) (by simp at hf ⊢; omega)]
    rfl

/-- Uniform field consumption (with a following comma): however the encoder
quoted the doubled value, the splitter recovers the original. -/
theorem splitCSVLineGo_field_comma (d : Str) (cur : Str) (acc : List Str)
    (rest : Str) (fuel : Nat)
    (hf : (quoteField (dblQuotes d) ++ ',' :: rest).length ≤ fuel) :
    splitCSVLineGo fuel false cur acc (quoteField (dblQuotes d) ++ ',' :: rest) =
      splitCSVLineGo rest.length false [] (acc ++ [cur ++ d]) rest := by
  by_cases hq : needsQuote (dblQuotes d) = true
  · unfold quoteField at hf ⊢
    rw [if_pos hq] at hf ⊢
    have hshape : ('"' :: dblQuotes d ++ ['"']) ++ ',' :: rest =
        '"' :: dblQuotes d ++ '"' :: ',' :: rest := by
      simp
    rw [hshape] at hf ⊢
    exact splitCSVLineGo_quoted_comma d cur acc rest fuel hf
  · unfold quoteField at hf ⊢
    rw [if_neg hq] at hf ⊢
    obtain ⟨hq', hc', _⟩ := not_needsQuote_spec hq
    have hqd : '"' ∉ d := fun hm => hq' (mem_dblQuotes_of_mem hm)
    rw [dblQuotes_eq_self hqd] at hf hc' ⊢
    exact splitCSVLineGo_plain_comma d cur acc rest fuel hqd hc' hf

/-- Uniform final-field consumption. -/
theorem splitCSVLineGo_field_end (d : Str) (cur : Str) (acc : List Str)
    (fuel : Nat) (hf : (quoteField (dblQuotes d)).length ≤ fuel) :
    splitCSVLineGo fuel false cur acc (quoteField (dblQuotes d)) =
      acc ++ [cur ++ d] := by
  by_cases hq : needsQuote (dblQuotes d) = true
  · unfold quoteField at hf ⊢
    rw [if_pos hq] at hf ⊢
    exact splitCSVLineGo_quoted_end d cur acc fuel hf
  · unfold quoteField at hf ⊢
    rw [if_neg hq] at hf ⊢
    obtain ⟨hq', hc', _⟩ := not_needsQuote_spec hq
    have hqd : '"' ∉ d := fun hm => hq' (mem_dblQuotes_of_mem hm)
    rw [dblQuotes_eq_self hqd] at hf hc' ⊢
    exact splitCSVLineGo_plain_end d cur acc fuel hqd hc' hf

/-- The splitter inverts a whole encoded row of fields. -/
theorem splitCSVLineGo_row (ds : List Str) (d : Str) : ∀ (acc : List Str),
    splitCSVLineGo (joinSep ',' ((d :: ds).map (fun v => quoteField (dblQuotes v)))).length
      false [] acc (joinSep ',' ((d :: ds).map (fun v => quoteField (dblQuotes v)))) =
      acc ++ d :: ds := by
  induction ds generalizing d with
  | nil =>
    intro acc
    have hj : joinSep ',' ([d].map (fun v => quoteField (dblQuotes v))) =
        quoteField (dblQuotes d) := rfl
    rw [hj]
    simpa using splitCSVLineGo_field_end d [] acc _ le_rfl
  | cons d2 ds ih =>
    intro acc
    have hj : joinSep ',' ((d :: d2 :: ds).map (fun v => quoteField (dblQuotes v))) =
        quoteField (dblQuotes d) ++
          ',' :: joinSep ',' ((d2 :: ds).map (fun v => quoteField (dblQuotes v))) := rfl
    rw [hj]
    rw [splitCSVLineGo_field_comma d [] acc _ _ le_rfl]
    simpa using ih d2 (acc ++ [d])

/-- `splitCSVLine` recovers the 12 original field values of an encoded row. -/
theorem splitCSVLine_row (ds : List Str) (hne : ds ≠ []) (hlen : ds.length = 12) :
    splitCSVLine (joinSep ',' (ds.map (fun v => quoteField (dblQuotes v)))) 12 = ds := by
  cases ds with
  | nil => exact absurd rfl hne
  | cons d ds =>
    unfold splitCSVLine padCols
    rw [splitCSVLineGo_row ds d []]
    simp at hlen
    simp [hlen]

end GPlanner

namespace GPlanner

/-- The line splitter consumes at least one character per fuel unit. -/
theorem splitLinesGo_fuel (fuel1 : Nat) : ∀ (fuel2 : Nat) (cur : Str)
    (acc : List Str) (s : Str), s.length ≤ fuel1 → s.length ≤ fuel2 →
    splitLinesGo fuel1 cur acc s = splitLinesGo fuel2 cur acc s := by
  induction fuel1 with
  | zero =>
    intro fuel2 cur acc s h1 h2
    have hs : s = [] := List.length_eq_zero.mp (Nat.le_zero.mp h1)
    subst hs
    cases fuel2 <;> rfl
  | succ f ih =>
    intro fuel2 cur acc s h1 h2
    cases s with
    | nil => cases fuel2 <;> rfl
    | cons c rest =>
      cases fuel2 with
      | zero => exact absurd h2 (by simp)
      | succ g =>
        have hr1 : rest.length ≤ f := by simp at h1; omega
        have hr2 : rest.length ≤ g := by simp at h2; omega
        have ht1 : rest.tail.length ≤ f := by simp [List.length_tail]; omega
        have ht2 : rest.tail.length ≤ g := by simp [List.length_tail]; omega
        simp only [splitLinesGo]
        split_ifs <;>
          first
          | exact ih g [] (acc ++ [cur]) rest hr1 hr2
          | exact ih g [] (acc ++ [cur]) rest.tail ht1 ht2
          | exact ih g (cur ++ [c]) acc rest hr1 hr2

/-- Consuming one break-free line up to its terminating newline. -/
theorem splitLinesGo_line_newline (l : Str) : ∀ (cur : Str) (acc : List Str)
    (rest : Str) (fuel : Nat), '\n' ∉ l → '\r' ∉ l →
    (l ++ '\n' :: rest).length ≤ fuel →
    splitLinesGo fuel cur acc (l ++ '\n' :: rest) =
      splitLinesGo rest.length [] (acc ++ [cur ++ l]) rest := by
  induction l with
  | nil =>
    intro cur acc rest fuel _ _ hf
    cases fuel with
    | zero => exact absurd hf (by simp)
    | succ f =>
      have step : splitLinesGo (f + 1) cur acc ([] ++ '\n' :: rest) =
          splitLinesGo f [] (acc ++ [cur]) rest := rfl
      rw [step]
      rw [splitLinesGo_fuel f rest.length [] (acc ++ [cur]) rest
        (by simp at hf; omega) le_rfl]
      simp
  | cons c l ih =>
    intro cur acc rest fuel hn hr hf
    cases fuel with
    | zero => exact absurd hf (by simp)
    | succ f =>
      have hcn : ¬(c = '\n') := fun h => hn (h ▸ List.mem_cons_self c l)
      have hcr : ¬(c = '\r' ∧ ((l ++ '\n' :: rest).head? = some '\n')) :=
        fun h => hr (h.1 ▸ List.mem_cons_self c l)
      simp only [List.cons_append, splitLinesGo, if_neg hcn, if_neg hcr]
      rw [ih (cur ++ [c]) acc rest f
        (fun h => hn (List.mem_cons_of_mem c h))
        (fun h => hr (List.mem_cons_of_mem c h))
        (by simp at hf ⊢; omega)]
      simp [List.append_assoc]

/-- Consuming a break-free final line. -/
theorem splitLinesGo_line_end (l : Str) : ∀ (cur : Str) (acc : List Str)
    (fuel : Nat), '\n' ∉ l → '\r' ∉ l → l.length ≤ fuel →
    splitLinesGo fuel cur acc l = acc ++ [cur ++ l] := by
  induction l with
  | nil =>
    intro cur acc fuel _ _ _
    cases fuel <;> simp [splitLinesGo]
  | cons c l ih =>
    intro cur acc fuel hn hr hf
    cases fuel with
    | zero => exact absurd hf (by simp)
    | succ f =>
      have hcn : ¬(c = '\n') := fun h => hn (h ▸ List.mem_cons_self c l)
      have hcr : ¬(c = '\r' ∧ (l.head? = some '\n')) :=
        fun h => hr (h.1 ▸ List.mem_cons_self c l)
      simp only [splitLinesGo, if_neg hcn, if_neg hcr]
      rw [ih (cur ++ [c]) acc f
        (fun h => hn (List.mem_cons_of_mem c h))
        (fun h => hr (List.mem_cons_of_mem c h))
        (by simp at hf ⊢; omega)]
      simp [List.append_assoc]

/-- `split(/\r?\n/)` inverts `join("\n")` on break-free lines. -/
theorem jsSplitLines_joinSep (ds : List Str) (d : Str)
    (h : ∀ l ∈ d :: ds, '\n' ∉ l ∧ '\r' ∉ l) :
    jsSplitLines (joinSep '\n' (d :: ds)) = d :: ds := by
  suffices hgen : ∀ (ds : List Str) (d : Str) (cur : Str) (acc : List Str),
      (∀ l ∈ d :: ds, '\n' ∉ l ∧ '\r' ∉ l) →
      splitLinesGo (joinSep '\n' (d :: ds)).length cur acc
        (joinSep '\n' (d :: ds)) = acc ++ (cur ++ d) :: ds by
    have := hgen ds d [] [] h
    simpa [jsSplitLines] using this
  intro ds
  induction ds with
  | nil =>
    intro d cur acc hcl
    have hj : joinSep '\n' [d] = d := rfl
    rw [hj]
    exact splitLinesGo_line_end d cur acc d.length
      (hcl d (List.mem_cons_self d [])).1 (hcl d (List.mem_cons_self d [])).2 le_rfl
  | cons d2 ds ih =>
    intro d cur acc hcl
    have hj : joinSep '\n' (d :: d2 :: ds) = d ++ '\n' :: joinSep '\n' (d2 :: ds) := rfl
    rw [hj]
    rw [splitLinesGo_line_newline d cur acc (joinSep '\n' (d2 :: ds)) _
      (hcl d (List.mem_cons_self d _)).1 (hcl d (List.mem_cons_self d _)).2 le_rfl]
    rw [ih d2 [] (acc ++ [cur ++ d])
      (fun l hl => hcl l (List.mem_cons_of_mem d hl))]
    simp

/-- Characters of a `join` are the separator or characters of a part. -/
theorem mem_joinSep {c : Char} {sep : Char} : ∀ {vs : List Str},
    c ∈ joinSep sep vs → c = sep ∨ ∃ v ∈ vs, c ∈ v := by
  intro vs
  induction vs with
  | nil => intro h; simp [joinSep] at h
  | cons v vs ih =>
    intro h
    cases vs with
    | nil =>
      refine Or.inr ⟨v, List.mem_cons_self v [], ?_⟩
      simpa [joinSep] using h
    | cons v2 vs2 =>
      have hj : joinSep sep (v :: v2 :: vs2) = v ++ sep :: joinSep sep (v2 :: vs2) := rfl
      rw [hj] at h
      rcases List.mem_append.mp h with hm | hm
      · exact Or.inr ⟨v, List.mem_cons_self v _, hm⟩
      · rcases List.mem_cons.mp hm with rfl | hm
        · exact Or.inl rfl
        · rcases ih hm with h1 | ⟨w, hw, hcw⟩
          · exact Or.inl h1
          · exact Or.inr ⟨w, List.mem_cons_of_mem v hw, hcw⟩

/-- A `join` of at least two parts contains the separator. -/
theorem sep_mem_joinSep {sep : Char} : ∀ {vs : List Str}, 2 ≤ vs.length →
    sep ∈ joinSep sep vs := by
  intro vs h
  match vs, h with
  | v :: v2 :: vs2, _ =>
    have hj : joinSep sep (v :: v2 :: vs2) = v ++ sep :: joinSep sep (v2 :: vs2) := rfl
    rw [hj]
    exact List.mem_append.mpr (Or.inr (List.mem_cons_self sep _))

/-- Characters of a quoted field are a quote or characters of the value. -/
theorem mem_quoteField {c : Char} {v : Str} (h : c ∈ quoteField v) :
    c = '"' ∨ c ∈ v := by
  unfold quoteField at h
  split_ifs at h
  · rcases List.mem_cons.mp h with rfl | hm
    · exact Or.inl rfl
    · rcases List.mem_append.mp hm with hm | hm
      · exact Or.inr hm
      · simp at hm
        exact Or.inl hm
  · exact Or.inr h

/-- A non-whitespace character survives `dropWhile jsIsWS`. -/
theorem mem_dropWhile_of_not_ws {c : Char} : ∀ {l : Str}, c ∈ l →
    jsIsWS c = false → c ∈ l.dropWhile jsIsWS := by
  intro l
  induction l with
  | nil => intro h _; simp at h
  | cons c0 l ih =>
    intro h hws
    by_cases h0 : jsIsWS c0 = true
    · rw [List.dropWhile_cons_of_pos h0]
      rcases List.mem_cons.mp h with rfl | hm
      · rw [hws] at h0; cases h0
      · exact ih hm hws
    · rw [List.dropWhile_cons_of_neg h0]
      exact h

/-- A non-whitespace character survives `trim`. -/
theorem mem_jsTrim_of_not_ws {c : Char} {l : Str} (h : c ∈ l)
    (hws : jsIsWS c = false) : c ∈ jsTrim l := by
  unfold jsTrim
  rw [List.mem_reverse]
  apply mem_dropWhile_of_not_ws _ hws
  rw [List.mem_reverse]
  exact mem_dropWhile_of_not_ws h hws

/-- A string containing a non-whitespace character trims to nonempty. -/
theorem jsTrim_ne_nil_of_mem {c : Char} {l : Str} (h : c ∈ l)
    (hws : jsIsWS c = false) : jsTrim l ≠ [] := by
  intro hnil
  have := mem_jsTrim_of_not_ws h hws
  rw [hnil] at this
  simp at this

end GPlanner

namespace GPlanner

/-- The serialized region digit of a well-formed task is quote-free. -/
theorem intToStr_region_quoteFree {r : Int}
    (h : r = 1 ∨ r = 2 ∨ r = 3 ∨ r = 4) : QuoteFree (intToStr r) := by
  unfold QuoteFree
  rcases h with rfl | rfl | rfl | rfl <;> decide

/-- Bucket names are quote-free. -/
theorem bucketName_quoteFree (b : TimeBucket) : QuoteFree (bucketName b) := by
  unfold QuoteFree
  cases b <;> decide

/-- The encoder's row for a well-formed task is the uniform
quote-then-double encoding of its raw column values. -/
theorem csvRowValues_eq (today : Str) (t : Task) (h : WellFormedTask today t) :
    (csvRowValues t).map quoteField =
      (csvDecodedValues t).map (fun v => quoteField (dblQuotes v)) := by
  obtain ⟨_, hid, hdate, hdl, _, _, _, _, hreg, hrd, hcr, hfin, _, _⟩ := h
  simp only [csvRowValues, csvDecodedValues, List.map_cons, List.map_nil]
  rw [dblQuotes_eq_self hid.1, dblQuotes_eq_self hdate.1, dblQuotes_eq_self hdl.1,
    dblQuotes_eq_self (intToStr_region_quoteFree hreg).1,
    dblQuotes_eq_self (bucketName_quoteFree t.bucket).1,
    dblQuotes_eq_self hrd.1, dblQuotes_eq_self hcr.1, dblQuotes_eq_self hfin.1]

/-- Every raw column value of a well-formed task is break-free. -/
theorem csvDecodedValues_noBreak (today : Str) (t : Task)
    (h : WellFormedTask today t) :
    ∀ v ∈ csvDecodedValues t, '\n' ∉ v ∧ '\r' ∉ v := by
  obtain ⟨_, hid, hdate, hdl, hproj, htag, hcol, htask, hreg, hrd, hcr, hfin, _, _⟩ := h
  intro v hv
  simp only [csvDecodedValues, List.mem_cons, List.not_mem_nil, or_false] at hv
  have hregQ := intToStr_region_quoteFree hreg
  have hbk := bucketName_quoteFree t.bucket
  rcases hv with rfl | rfl | rfl | rfl | rfl | rfl | rfl | rfl | rfl | rfl | rfl | rfl
  · exact ⟨hid.2.1, hid.2.2⟩
  · exact ⟨hdate.2.1, hdate.2.2⟩
  · exact ⟨hdl.2.1, hdl.2.2⟩
  · exact hproj
  · exact htag
  · exact hcol
  · exact htask
  · exact ⟨hregQ.2.1, hregQ.2.2⟩
  · exact ⟨hbk.2.1, hbk.2.2⟩
  · exact ⟨hrd.2.1, hrd.2.2⟩
  · exact ⟨hcr.2.1, hcr.2.2⟩
  · exact ⟨hfin.2.1, hfin.2.2⟩

/-- The encoded row of a well-formed task contains no line break. -/
theorem rowLine_noBreak (today : Str) (t : Task) (h : WellFormedTask today t) :
    '\n' ∉ joinSep ',' ((csvRowValues t).map quoteField) ∧
    '\r' ∉ joinSep ',' ((csvRowValues t).map quoteField) := by
  rw [csvRowValues_eq today t h]
  constructor <;> intro hm
  · rcases mem_joinSep hm with h1 | ⟨e, he, hce⟩
    · cases h1
    · rcases List.mem_map.mp he with ⟨v, hv, rfl⟩
      rcases mem_quoteField hce with h2 | h2
      · cases h2
      · exact (csvDecodedValues_noBreak today t h v hv).1 (mem_of_mem_dblQuotes h2)
  · rcases mem_joinSep hm with h1 | ⟨e, he, hce⟩
    · cases h1
    · rcases List.mem_map.mp he with ⟨v, hv, rfl⟩
      rcases mem_quoteField hce with h2 | h2
      · cases h2
      · exact (csvDecodedValues_noBreak today t h v hv).2 (mem_of_mem_dblQuotes h2)

/-- The encoded row of any task trims to a nonempty string (it contains a
comma). -/
theorem rowLine_trim_ne_nil (t : Task) :
    jsTrim (joinSep ',' ((csvRowValues t).map quoteField)) ≠ [] := by
  have hmem : ',' ∈ joinSep ',' ((csvRowValues t).map quoteField) := by
    apply sep_mem_joinSep
    simp [csvRowValues]
  exact jsTrim_ne_nil_of_mem hmem (by decide)

end GPlanner

namespace GPlanner

/-- The index bundle of the standard header. -/
theorem csvIdxsOf_std :
    csvIdxsOf csvHeaderNames =
      ⟨some 0, some 1, some 2, some 3, some 4, some 5, some 6, some 7,
       some 8, some 9, some 10, some 11⟩ := rfl

/-- Decoding the raw column values of a well-formed task recovers its id,
project, task text and deadline, and recomputes its placement. -/
theorem decode_encoded_row (today nowTs : Str) (i : Nat) (t : Task)
    (h : WellFormedTask today t) :
    (parseCSVRowFromCols (csvIdxsOf csvHeaderNames) today nowTs i
        (csvDecodedValues t)).id = t.id ∧
    (parseCSVRowFromCols (csvIdxsOf csvHeaderNames) today nowTs i
        (csvDecodedValues t)).project = t.project ∧
    (parseCSVRowFromCols (csvIdxsOf csvHeaderNames) today nowTs i
        (csvDecodedValues t)).task = t.task ∧
    (parseCSVRowFromCols (csvIdxsOf csvHeaderNames) today nowTs i
        (csvDecodedValues t)).deadline = t.deadline ∧
    ∃ p : Placement, bucketFromDaysNum (diffInDays today t.deadline) = some p ∧
      (parseCSVRowFromCols (csvIdxsOf csvHeaderNames) today nowTs i
          (csvDecodedValues t)).region = p.region ∧
      (parseCSVRowFromCols (csvIdxsOf csvHeaderNames) today nowTs i
          (csvDecodedValues t)).bucket = p.bucket ∧
      (parseCSVRowFromCols (csvIdxsOf csvHeaderNames) today nowTs i
          (csvDecodedValues t)).remainingDays =
        jsMax1 (diffInDays today t.deadline) := by
  obtain ⟨hid, _, _, _, _, _, _, _, _, _, _, _, hnorm, p, hrec⟩ := h
  rw [csvIdxsOf_std]
  refine ⟨?_, ?_, ?_, ?_, p, hrec, ?_, ?_, ?_⟩ <;>
    simp [parseCSVRowFromCols, colAt, csvDecodedValues, hnorm, hid, hrec]

end GPlanner

namespace GPlanner

/-- The parse loop over the encoded rows of well-formed tasks decodes one
matching task per row. -/
theorem parseCSVGo_encoded (today nowTs : Str) : ∀ (tasks : List Task) (i : Nat),
    (∀ t ∈ tasks, WellFormedTask today t) →
    (parseCSVGo (csvIdxsOf csvHeaderNames) 12 today nowTs i
        (tasks.map (fun t => joinSep ',' ((csvRowValues t).map quoteField)))).length =
      tasks.length ∧
    ∀ (k : Nat) (dt : Task), k < tasks.length →
      DecodedMatches today
        ((parseCSVGo (csvIdxsOf csvHeaderNames) 12 today nowTs i
          (tasks.map (fun t => joinSep ',' ((csvRowValues t).map quoteField)))).getD k dt)
        (tasks.getD k dt) := by
  intro tasks
  induction tasks with
  | nil =>
    intro i _
    exact ⟨rfl, fun k dt hk => absurd hk (by simp)⟩
  | cons t ts ih =>
    intro i hWF
    have hWt := hWF t (List.mem_cons_self t ts)
    have hcols : splitCSVLine (joinSep ',' ((csvRowValues t).map quoteField)) 12 =
        csvDecodedValues t := by
      rw [csvRowValues_eq today t hWt]
      exact splitCSVLine_row (csvDecodedValues t) (by simp [csvDecodedValues])
        (by simp [csvDecodedValues])
    have hstep : parseCSVGo (csvIdxsOf csvHeaderNames) 12 today nowTs i
        ((t :: ts).map (fun t => joinSep ',' ((csvRowValues t).map quoteField))) =
        parseCSVRowFromCols (csvIdxsOf csvHeaderNames) today nowTs i
          (csvDecodedValues t) ::
        parseCSVGo (csvIdxsOf csvHeaderNames) 12 today nowTs (i + 1)
          (ts.map (fun t => joinSep ',' ((csvRowValues t).map quoteField))) := by
      simp only [List.map_cons]
      simp only [parseCSVGo]
      rw [if_neg (rowLine_trim_ne_nil t)]
      simp only [hcols]
      rw [if_neg (by simp [csvDecodedValues])]
    obtain ⟨ihlen, ihidx⟩ := ih (i + 1) (fun u hu => hWF u (List.mem_cons_of_mem t hu))
    rw [hstep]
    refine ⟨by simpa using ihlen, ?_⟩
    intro k dt hk
    cases k with
    | zero =>
      simp only [List.getD_cons_zero]
      exact decode_encoded_row today nowTs i t hWt
    | succ k =>
      simp only [List.getD_cons_succ]
      exact ihidx k dt (by simpa using hk)

end GPlanner

namespace GPlanner

/-- C3 (amended).  Encoding a list of well-formed tasks with `tasksToCSV` and
decoding the text with `parseCSV` yields exactly as many tasks; the task
at each position keeps its `id`, `project`, `task` text and
(date-normalized) `deadline`, and its `region`, `bucket` and
`remainingDays` are recomputed by `bucketFromDays` from the deadline
against the reference date used for decoding. -/
theorem csv_roundtrip (today nowTs : Str) (tasks : List Task)
    (hWF : ∀ t ∈ tasks, WellFormedTask today t) (k : Nat) (dt : Task) :
    (parseCSV today nowTs (tasksToCSV tasks)).length = tasks.length ∧
    (k < tasks.length →
      DecodedMatches today
        ((parseCSV today nowTs (tasksToCSV tasks)).getD k dt)
        (tasks.getD k dt)) := by
  have hclean : ∀ l ∈ (joinSep ',' csvHeaderNames) ::
      tasks.map (fun t => joinSep ',' ((csvRowValues t).map quoteField)),
      '\n' ∉ l ∧ '\r' ∉ l := by
    intro l hl
    rcases List.mem_cons.mp hl with rfl | hl
    · exact ⟨by decide, by decide⟩
    · rcases List.mem_map.mp hl with ⟨t, ht, rfl⟩
      exact rowLine_noBreak today t (hWF t ht)
  have hsplit : jsSplitLines (tasksToCSV tasks) =
      (joinSep ',' csvHeaderNames) ::
        tasks.map (fun t => joinSep ',' ((csvRowValues t).map quoteField)) := by
    unfold tasksToCSV
    exact jsSplitLines_joinSep _ _ hclean
  have hfilter : ((jsSplitLines (tasksToCSV tasks)).filter
        (fun l => !(jsTrim l).isEmpty)) =
      (joinSep ',' csvHeaderNames) ::
        tasks.map (fun t => joinSep ',' ((csvRowValues t).map quoteField)) := by
    rw [hsplit]
    apply List.filter_eq_self.mpr
    intro l hl
    rcases List.mem_cons.mp hl with rfl | hl
    · decide
    · rcases List.mem_map.mp hl with ⟨t, ht, rfl⟩
      simp [List.isEmpty_iff, rowLine_trim_ne_nil t]
  cases tasks with
  | nil =>
    refine ⟨?_, fun hk => absurd hk (by simp)⟩
    simp only [parseCSV, hfilter, List.map_nil]
    rw [if_pos (by decide)]
  | cons t ts =>
    have hWF2 : ∀ u ∈ t :: ts, WellFormedTask today u := hWF
    have hgo := parseCSVGo_encoded today nowTs (t :: ts) 1 hWF2
    have hparse : parseCSV today nowTs (tasksToCSV (t :: ts)) =
        parseCSVGo (csvIdxsOf csvHeaderNames) 12 today nowTs 1
          ((t :: ts).map (fun t => joinSep ',' ((csvRowValues t).map quoteField))) := by
      simp only [parseCSV, hfilter]
      rw [if_neg (by simp)]
      have hhead : jsSplitComma (joinSep ',' csvHeaderNames) = csvHeaderNames := rfl
      simp only [List.headD_cons, hhead, List.drop_succ_cons, List.drop_zero]
      rfl
    rw [hparse]
    exact ⟨hgo.1, fun hk => hgo.2 k dt hk⟩

end GPlanner

namespace GPlanner

set_option maxRecDepth 40000 in
/-- C3 counterexample.  The round trip is not unconditional: the encoder
quote-wraps a task text that contains a newline (the Textarea admits one),
but `parseCSV` splits the text on line breaks before any quote handling
(page.tsx:5254), so the single encoded task decodes to two shredded
tasks — the claimed task count N is not preserved. -/
theorem csv_roundtrip_counterexample :
    (parseCSV ("2025-03-01".data) ("NOW".data)
      (tasksToCSV [csvNewlineTask])).length = 2 := by
  decide

end GPlanner

namespace GPlanner

set_option maxRecDepth 80000 in
/-- Witness for C3 on a concrete two-task list with quoted and comma-laden
fields. -/
theorem csv_roundtrip_witness :
    (parseCSV ("2025-03-01".data) ("NOW".data)
      (tasksToCSV [wtSample1, wtSample2])).length = 2 ∧
    DecodedMatches ("2025-03-01".data)
      ((parseCSV ("2025-03-01".data) ("NOW".data)
        (tasksToCSV [wtSample1, wtSample2])).getD 0 wtSample1) wtSample1 ∧
    DecodedMatches ("2025-03-01".data)
      ((parseCSV ("2025-03-01".data) ("NOW".data)
        (tasksToCSV [wtSample1, wtSample2])).getD 1 wtSample1) wtSample2 := by
  have hWF : ∀ t ∈ [wtSample1, wtSample2],
      WellFormedTask ("2025-03-01".data) t := by
    intro t ht
    rcases List.mem_cons.mp ht with rfl | ht
    · exact ⟨by decide, by decide, by decide, by decide, by decide, by decide,
        by decide, by decide, by decide, by decide, by decide, by decide,
        by decide, ⟨⟨4, .days⟩, by decide⟩⟩
    · rcases List.mem_cons.mp ht with rfl | ht
      · exact ⟨by decide, by decide, by decide, by decide, by decide, by decide,
          by decide, by decide, by decide, by decide, by decide, by decide,
          by decide, ⟨⟨2, .months⟩, by decide⟩⟩
      · simp at ht
  have h0 := csv_roundtrip ("2025-03-01".data) ("NOW".data)
    [wtSample1, wtSample2] hWF 0 wtSample1
  have h1 := csv_roundtrip ("2025-03-01".data) ("NOW".data)
    [wtSample1, wtSample2] hWF 1 wtSample1
  exact ⟨h0.1, h0.2 (by decide), h1.2 (by decide)⟩

end GPlanner
